import Mathlib

/-!
Verification of the run-tracing core of this repository.

The tracer core (`BaseTracer` in the source) keeps an in-memory registry
(`runMap`) of the currently open runs, resolves execution orders for new
runs, links children under their parents, and on closure either hands a
root run to the persistence adapter or propagates ordering information to
the parent.  We embed the state machine shallowly: the mutable `Map` is an
association list, in-place mutation of a run object becomes replacement of
its registry entry (in the source, the registry entry and the run object
are the same JavaScript object, so a field assignment is visible through
the registry; the registry is the authoritative copy that every lifecycle
operation reads), and `throw` becomes an `Except` error paired with the
state as it stands at the moment of the throw.
-/

namespace Tracer

/-- The three run kinds of the source (`RunType = "llm" | "chain" | "tool"`). -/
inductive RunType where
  | llm
  | chain
  | tool
deriving DecidableEq, Repr

/-- Fields shared by every run (`BaseRun` in the source).  The opaque
`serialized: {name}` descriptor is modelled by its name. -/
structure RunBase where
  uuid : String
  parent_uuid : Option String
  start_time : Nat
  end_time : Nat
  execution_order : Nat
  child_execution_order : Nat
  serialized : String
  session_id : Nat
  error : Option String
deriving DecidableEq, Repr

/-- A run record: `LLMRun`, `ChainRun` or `ToolRun`.  Payload types that are
opaque to the tracer (`LLMResult`, `ChainValues`) are modelled as strings. -/
inductive Run where
  | llm (base : RunBase) (prompts : List String) (response : Option String)
  | chain (base : RunBase) (inputs : String) (outputs : Option String)
      (child_llm_runs : List Run) (child_chain_runs : List Run)
      (child_tool_runs : List Run)
  | tool (base : RunBase) (tool_input : String) (output : Option String)
      (action : String) (child_llm_runs : List Run) (child_chain_runs : List Run)
      (child_tool_runs : List Run)
deriving Repr

/-- The shared base fields of a run. -/
def Run.base : Run → RunBase
  | .llm b _ _ => b
  | .chain b _ _ _ _ _ => b
  | .tool b _ _ _ _ _ _ => b

/-- The discriminant (`run.type` in the source). -/
def Run.type : Run → RunType
  | .llm _ _ _ => .llm
  | .chain _ _ _ _ _ _ => .chain
  | .tool _ _ _ _ _ _ _ => .tool

/-- Replace the shared base fields, keeping kind-specific payload. -/
def Run.withBase : Run → RunBase → Run
  | .llm _ p r, b => .llm b p r
  | .chain _ i o cl cc ct, b => .chain b i o cl cc ct
  | .tool _ ti o a cl cc ct, b => .tool b ti o a cl cc ct

/-- `run.child_execution_order = n` (in-place field assignment in the source). -/
def Run.setChildExecutionOrder (r : Run) (n : Nat) : Run :=
  r.withBase { r.base with child_execution_order := n }

/-- A tracing session (`TracerSession` in the source). -/
structure TracerSession where
  id : Nat
  start_time : Nat
  name : Option String
deriving DecidableEq, Repr

/-- The errors thrown by the tracer core, named as the spec's taxonomy names
them.  `hookFailure` stands for an arbitrary error raised by a user hook and
`transportFailure` for a persistence failure. -/
inductive TracerError where
  | parentNotFound (parentRunId : String)
  | invalidParentKind
  | noSuchOpenRun
  | hookFailure (message : String)
  | transportFailure (message : String)
deriving DecidableEq, Repr

/-- The Run Registry: the source's `Map<string, Run>` as an association list. -/
abbrev RunMap := List (String × Run)

/-- `runMap.get(k)`. -/
def mapGet (m : RunMap) (k : String) : Option Run :=
  match m with
  | [] => none
  | (k2, v) :: t => if k2 = k then some v else mapGet t k

/-- `runMap.delete(k)`. -/
def mapErase (m : RunMap) (k : String) : RunMap :=
  m.filter (fun p => p.1 != k)

/-- `runMap.set(k, v)`: overwrites any existing binding for `k`.  (The
source's `Map` keeps insertion order, which no lifecycle operation ever
observes; lookup behaviour is identical.) -/
def mapSet (m : RunMap) (k : String) (v : Run) : RunMap :=
  (k, v) :: mapErase m k

/-- The mutable state of a `BaseTracer`: the optional session and the
registry of open runs. -/
structure TracerState where
  session : Option TracerSession
  runMap : RunMap

/-- `_getExecutionOrder`: 1 for a root, parent's current
child-execution-order + 1 otherwise; throws if the parent is absent. -/
def getExecutionOrder (runMap : RunMap) (parentRunId : Option String) :
    Except TracerError Nat :=
  match parentRunId with
  | none => .ok 1
  | some pid =>
    match mapGet runMap pid with
    | none => .error (.parentNotFound pid)
    | some parentRun => .ok (parentRun.base.child_execution_order + 1)

/-- `_addChildRun`: append the child to the parent's child collection
matching the child's kind.  The source's parameter type restricts the
parent to chain or tool; the `llm` branch is unreachable because
`_startTrace` checks the parent kind first. -/
def addChildRun (parentRun : Run) (childRun : Run) : Run :=
  match parentRun with
  | .llm b p r => .llm b p r
  | .chain b i o cl cc ct =>
    match childRun.type with
    | .llm => .chain b i o (cl ++ [childRun]) cc ct
    | .chain => .chain b i o cl (cc ++ [childRun]) ct
    | .tool => .chain b i o cl cc (ct ++ [childRun])
  | .tool b ti o a cl cc ct =>
    match childRun.type with
    | .llm => .tool b ti o a (cl ++ [childRun]) cc ct
    | .chain => .tool b ti o a cl (cc ++ [childRun]) ct
    | .tool => .tool b ti o a cl cc (ct ++ [childRun])

/-- `_startTrace`: if the run names a parent, the parent must be present and
of kind chain or tool; the child is appended to the parent and the run is
inserted into the registry.  Errors are thrown before any mutation. -/
def startTrace (st : TracerState) (run : Run) :
    Except TracerError Unit × TracerState :=
  match run.base.parent_uuid with
  | some pid =>
    match mapGet st.runMap pid with
    | some parentRun =>
      if parentRun.type = .tool ∨ parentRun.type = .chain then
        (.ok (), { st with
          runMap := mapSet (mapSet st.runMap pid (addChildRun parentRun run))
            run.base.uuid run })
      else
        (.error .invalidParentKind, st)
    | none => (.error (.parentNotFound pid), st)
  | none =>
    (.ok (), { st with runMap := mapSet st.runMap run.base.uuid run })

/-- `_endTrace`: a root run is handed to `persistRun` and, only once that
call returns normally, deleted from the registry (a throwing persist skips
the delete); a child run updates the parent's child-execution-order to the
max of the two and is then deleted.  The persistence adapter is a
parameter, as it is an abstract method of `BaseTracer`. -/
def endTrace (persist : Run → Except TracerError Unit) (st : TracerState)
    (run : Run) : Except TracerError Unit × TracerState :=
  match run.base.parent_uuid with
  | none =>
    match persist run with
    | .error e => (.error e, st)
    | .ok _ => (.ok (), { st with runMap := mapErase st.runMap run.base.uuid })
  | some pid =>
    match mapGet st.runMap pid with
    | none => (.error (.parentNotFound pid), st)
    | some parentRun =>
      (.ok (), { st with
        runMap := mapErase
          (mapSet st.runMap pid
            (parentRun.setChildExecutionOrder
              (max parentRun.base.child_execution_order
                run.base.child_execution_order)))
          run.base.uuid })

/-- The tracer's external collaborators: the abstract persistence adapter,
the lazily loaded default session, and the optional per-transition hooks
(an unset hook is `fun r => Except.ok ()`). -/
structure Config where
  persist : Run → Except TracerError Unit
  defaultSession : TracerSession
  onLLMStart : Run → Except TracerError Unit
  onLLMEnd : Run → Except TracerError Unit
  onLLMError : Run → Except TracerError Unit
  onChainStart : Run → Except TracerError Unit
  onChainEnd : Run → Except TracerError Unit
  onChainError : Run → Except TracerError Unit
  onToolStart : Run → Except TracerError Unit
  onToolEnd : Run → Except TracerError Unit
  onToolError : Run → Except TracerError Unit

/-- The llm run record that `handleLLMStart` constructs: execution order and
child-execution-order both equal to the resolved order. -/
def mkLLMRun (cfg : Config) (st : TracerState) (name : String)
    (prompts : List String) (runId : String) (parentRunId : Option String)
    (now eo : Nat) : Run :=
  Run.llm
    { uuid := runId, parent_uuid := parentRunId, start_time := now,
      end_time := 0, execution_order := eo, child_execution_order := eo,
      serialized := name, session_id := (st.session.getD cfg.defaultSession).id,
      error := none }
    prompts none

/-- The chain run record that `handleChainStart` constructs. -/
def mkChainRun (cfg : Config) (st : TracerState) (name inputs : String)
    (runId : String) (parentRunId : Option String) (now eo : Nat) : Run :=
  Run.chain
    { uuid := runId, parent_uuid := parentRunId, start_time := now,
      end_time := 0, execution_order := eo, child_execution_order := eo,
      serialized := name, session_id := (st.session.getD cfg.defaultSession).id,
      error := none }
    inputs none [] [] []

/-- The tool run record that `handleToolStart` constructs (the source's
redundant `action: JSON.stringify(tool)` is modelled by the tool name). -/
def mkToolRun (cfg : Config) (st : TracerState) (name input : String)
    (runId : String) (parentRunId : Option String) (now eo : Nat) : Run :=
  Run.tool
    { uuid := runId, parent_uuid := parentRunId, start_time := now,
      end_time := 0, execution_order := eo, child_execution_order := eo,
      serialized := name, session_id := (st.session.getD cfg.defaultSession).id,
      error := none }
    input none name [] [] []

/-- `handleLLMStart`: bootstrap the session if unset, resolve the execution
order, build the run with execution order and child-execution-order both
equal to the resolved value, register it, then invoke the start hook. -/
def handleLLMStart (cfg : Config) (st : TracerState) (name : String)
    (prompts : List String) (runId : String) (parentRunId : Option String)
    (now : Nat) : Except TracerError Unit × TracerState :=
  let session := st.session.getD cfg.defaultSession
  let st0 : TracerState := { st with session := some session }
  match getExecutionOrder st0.runMap parentRunId with
  | .error e => (.error e, st0)
  | .ok executionOrder =>
    let run : Run := mkLLMRun cfg st name prompts runId parentRunId now
      executionOrder
    match startTrace st0 run with
    | (.error e, st1) => (.error e, st1)
    | (.ok _, st1) =>
      match cfg.onLLMStart run with
      | .error e => (.error e, st1)
      | .ok _ => (.ok (), st1)

/-- `handleChainStart`: same shape as `handleLLMStart` for a composite run. -/
def handleChainStart (cfg : Config) (st : TracerState) (name : String)
    (inputs : String) (runId : String) (parentRunId : Option String)
    (now : Nat) : Except TracerError Unit × TracerState :=
  let session := st.session.getD cfg.defaultSession
  let st0 : TracerState := { st with session := some session }
  match getExecutionOrder st0.runMap parentRunId with
  | .error e => (.error e, st0)
  | .ok executionOrder =>
    let run : Run := mkChainRun cfg st name inputs runId parentRunId now
      executionOrder
    match startTrace st0 run with
    | (.error e, st1) => (.error e, st1)
    | (.ok _, st1) =>
      match cfg.onChainStart run with
      | .error e => (.error e, st1)
      | .ok _ => (.ok (), st1)

/-- `handleToolStart`: same shape for a tool run (the source's redundant
`action: JSON.stringify(tool)` is modelled by the tool name). -/
def handleToolStart (cfg : Config) (st : TracerState) (name : String)
    (input : String) (runId : String) (parentRunId : Option String)
    (now : Nat) : Except TracerError Unit × TracerState :=
  let session := st.session.getD cfg.defaultSession
  let st0 : TracerState := { st with session := some session }
  match getExecutionOrder st0.runMap parentRunId with
  | .error e => (.error e, st0)
  | .ok executionOrder =>
    let run : Run := mkToolRun cfg st name input runId parentRunId now
      executionOrder
    match startTrace st0 run with
    | (.error e, st1) => (.error e, st1)
    | (.ok _, st1) =>
      match cfg.onToolStart run with
      | .error e => (.error e, st1)
      | .ok _ => (.ok (), st1)

/-- `handleLLMEnd`: the run must be open and of kind llm; set its end time
and response (visible through the registry, since the registry holds the
very object being mutated), invoke the end hook, then `_endTrace`. -/
def handleLLMEnd (cfg : Config) (st : TracerState) (output : String)
    (runId : String) (now : Nat) : Except TracerError Unit × TracerState :=
  match mapGet st.runMap runId with
  | some (.llm b prompts _) =>
    let llmRun : Run := .llm { b with end_time := now } prompts (some output)
    let st1 : TracerState := { st with runMap := mapSet st.runMap runId llmRun }
    match cfg.onLLMEnd llmRun with
    | .error e => (.error e, st1)
    | .ok _ => endTrace cfg.persist st1 llmRun
  | some _ => (.error .noSuchOpenRun, st)
  | none => (.error .noSuchOpenRun, st)

/-- `handleLLMError`: as `handleLLMEnd` but records the error message. -/
def handleLLMError (cfg : Config) (st : TracerState) (message : String)
    (runId : String) (now : Nat) : Except TracerError Unit × TracerState :=
  match mapGet st.runMap runId with
  | some (.llm b prompts resp) =>
    let llmRun : Run := .llm { b with end_time := now, error := some message }
      prompts resp
    let st1 : TracerState := { st with runMap := mapSet st.runMap runId llmRun }
    match cfg.onLLMError llmRun with
    | .error e => (.error e, st1)
    | .ok _ => endTrace cfg.persist st1 llmRun
  | some _ => (.error .noSuchOpenRun, st)
  | none => (.error .noSuchOpenRun, st)

/-- `handleChainEnd`. -/
def handleChainEnd (cfg : Config) (st : TracerState) (outputs : String)
    (runId : String) (now : Nat) : Except TracerError Unit × TracerState :=
  match mapGet st.runMap runId with
  | some (.chain b i _ cl cc ct) =>
    let chainRun : Run := .chain { b with end_time := now } i (some outputs)
      cl cc ct
    let st1 : TracerState :=
      { st with runMap := mapSet st.runMap runId chainRun }
    match cfg.onChainEnd chainRun with
    | .error e => (.error e, st1)
    | .ok _ => endTrace cfg.persist st1 chainRun
  | some _ => (.error .noSuchOpenRun, st)
  | none => (.error .noSuchOpenRun, st)

/-- `handleChainError`. -/
def handleChainError (cfg : Config) (st : TracerState) (message : String)
    (runId : String) (now : Nat) : Except TracerError Unit × TracerState :=
  match mapGet st.runMap runId with
  | some (.chain b i o cl cc ct) =>
    let chainRun : Run := .chain { b with end_time := now, error := some message }
      i o cl cc ct
    let st1 : TracerState :=
      { st with runMap := mapSet st.runMap runId chainRun }
    match cfg.onChainError chainRun with
    | .error e => (.error e, st1)
    | .ok _ => endTrace cfg.persist st1 chainRun
  | some _ => (.error .noSuchOpenRun, st)
  | none => (.error .noSuchOpenRun, st)

/-- `handleToolEnd`. -/
def handleToolEnd (cfg : Config) (st : TracerState) (output : String)
    (runId : String) (now : Nat) : Except TracerError Unit × TracerState :=
  match mapGet st.runMap runId with
  | some (.tool b ti _ a cl cc ct) =>
    let toolRun : Run := .tool { b with end_time := now } ti (some output)
      a cl cc ct
    let st1 : TracerState :=
      { st with runMap := mapSet st.runMap runId toolRun }
    match cfg.onToolEnd toolRun with
    | .error e => (.error e, st1)
    | .ok _ => endTrace cfg.persist st1 toolRun
  | some _ => (.error .noSuchOpenRun, st)
  | none => (.error .noSuchOpenRun, st)

/-- `handleToolError`. -/
def handleToolError (cfg : Config) (st : TracerState) (message : String)
    (runId : String) (now : Nat) : Except TracerError Unit × TracerState :=
  match mapGet st.runMap runId with
  | some (.tool b ti o a cl cc ct) =>
    let toolRun : Run := .tool { b with end_time := now, error := some message }
      ti o a cl cc ct
    let st1 : TracerState :=
      { st with runMap := mapSet st.runMap runId toolRun }
    match cfg.onToolError toolRun with
    | .error e => (.error e, st1)
    | .ok _ => endTrace cfg.persist st1 toolRun
  | some _ => (.error .noSuchOpenRun, st)
  | none => (.error .noSuchOpenRun, st)

/-- One lifecycle call, with its arguments and the wall-clock time at which
it is issued. -/
inductive Event where
  | llmStart (name : String) (prompts : List String) (runId : String)
      (parentRunId : Option String) (now : Nat)
  | llmEnd (output : String) (runId : String) (now : Nat)
  | llmError (message : String) (runId : String) (now : Nat)
  | chainStart (name : String) (inputs : String) (runId : String)
      (parentRunId : Option String) (now : Nat)
  | chainEnd (outputs : String) (runId : String) (now : Nat)
  | chainError (message : String) (runId : String) (now : Nat)
  | toolStart (name : String) (input : String) (runId : String)
      (parentRunId : Option String) (now : Nat)
  | toolEnd (output : String) (runId : String) (now : Nat)
  | toolError (message : String) (runId : String) (now : Nat)

/-- The run id an event refers to. -/
def Event.runId : Event → String
  | .llmStart _ _ i _ _ => i
  | .llmEnd _ i _ => i
  | .llmError _ i _ => i
  | .chainStart _ _ i _ _ => i
  | .chainEnd _ i _ => i
  | .chainError _ i _ => i
  | .toolStart _ _ i _ _ => i
  | .toolEnd _ i _ => i
  | .toolError _ i _ => i

/-- Whether the event is a Start event (the only events that insert a fresh
registry binding). -/
def Event.isStart : Event → Bool
  | .llmStart _ _ _ _ _ => true
  | .chainStart _ _ _ _ _ => true
  | .toolStart _ _ _ _ _ => true
  | _ => false

/-- Whether the event is an End or Fail event (the events that perform
Close). -/
def Event.isClose : Event → Bool
  | .llmEnd _ _ _ => true
  | .llmError _ _ _ => true
  | .chainEnd _ _ _ => true
  | .chainError _ _ _ => true
  | .toolEnd _ _ _ => true
  | .toolError _ _ _ => true
  | _ => false

/-- The parent run id a Start event supplies (no parent id for the other
events). -/
def Event.parentId : Event → Option String
  | .llmStart _ _ _ pr _ => pr
  | .chainStart _ _ _ pr _ => pr
  | .toolStart _ _ _ pr _ => pr
  | _ => none

/-- Dispatch one lifecycle call to its handler. -/
def step (cfg : Config) (st : TracerState) (ev : Event) :
    Except TracerError Unit × TracerState :=
  match ev with
  | .llmStart name prompts runId parentRunId now =>
    handleLLMStart cfg st name prompts runId parentRunId now
  | .llmEnd output runId now => handleLLMEnd cfg st output runId now
  | .llmError message runId now => handleLLMError cfg st message runId now
  | .chainStart name inputs runId parentRunId now =>
    handleChainStart cfg st name inputs runId parentRunId now
  | .chainEnd outputs runId now => handleChainEnd cfg st outputs runId now
  | .chainError message runId now => handleChainError cfg st message runId now
  | .toolStart name input runId parentRunId now =>
    handleToolStart cfg st name input runId parentRunId now
  | .toolEnd output runId now => handleToolEnd cfg st output runId now
  | .toolError message runId now => handleToolError cfg st message runId now

/-- Process a sequence of lifecycle calls, threading the state through (the
caller may or may not inspect per-call results; the state evolves either
way, as the source mutates the shared registry before any throw). -/
def runEvents (cfg : Config) (st : TracerState) (es : List Event) :
    TracerState :=
  match es with
  | [] => st
  | e :: t => runEvents cfg (step cfg st e).2 t

/-- A fresh tracer: no session, empty registry. -/
def initialState : TracerState := { session := none, runMap := [] }

/-- The state reached from a fresh tracer after a sequence of calls. -/
def stateAfter (cfg : Config) (es : List Event) : TracerState :=
  runEvents cfg initialState es

/-- A benign environment: persistence always succeeds and no hooks are set. -/
def cfgTriv : Config :=
  { persist := fun _ => .ok ()
    defaultSession := { id := 1, start_time := 0, name := none }
    onLLMStart := fun _ => .ok ()
    onLLMEnd := fun _ => .ok ()
    onLLMError := fun _ => .ok ()
    onChainStart := fun _ => .ok ()
    onChainEnd := fun _ => .ok ()
    onChainError := fun _ => .ok ()
    onToolStart := fun _ => .ok ()
    onToolEnd := fun _ => .ok ()
    onToolError := fun _ => .ok () }

end Tracer

namespace TracerV2

/-!
The V2 persistence adapter (`LangChainTracer` of the V2 tracer module):
conversion of a finalized run tree to the wire format and lazy
tenant/session resolution.  HTTP interactions are modelled by explicit
response parameters and a log of the requests issued.
-/

/-- A finalized V2 run tree as handed to `persistRun` (the V2 base
tracer's `Run`, with the fields `_convertToCreate` reads; opaque payloads
are strings). -/
structure RunV2 where
  id : String
  name : String
  start_time : Nat
  end_time : Nat
  run_type : String
  serialized : String
  error : Option String
  inputs : String
  outputs : Option String
  execution_order : Nat
  extra : Option String
  child_runs : List RunV2
deriving Repr

/-- The wire record (`RunCreate`). -/
structure RunCreate where
  id : String
  name : String
  start_time : Nat
  end_time : Nat
  run_type : String
  reference_example_id : Option String
  extra : String
  execution_order : Nat
  serialized : String
  error : Option String
  inputs : String
  outputs : String
  session_id : String
  child_runs : List RunCreate
deriving Repr

/-- The source merges the runtime-environment descriptor into the run's
extra object (`runExtra.runtime = await getRuntimeEnvironment()`); the
JSON-object merge is modelled as concatenation. -/
def mergeRuntime (extra : Option String) (runtimeEnv : String) : String :=
  extra.getD "" ++ runtimeEnv

mutual

/-- `_convertToCreate(run, example_id)`: build the wire record for one
node; the recursive call for each child passes no example id (the source's
`example_id` parameter defaults to `undefined` and the recursion omits
it).  Missing outputs default to an empty structure. -/
def convertToCreate (sessionId : String) (runtimeEnv : String) (run : RunV2)
    (exampleId : Option String) : RunCreate :=
  { id := run.id
    name := run.name
    start_time := run.start_time
    end_time := run.end_time
    run_type := run.run_type
    reference_example_id := exampleId
    extra := mergeRuntime run.extra runtimeEnv
    execution_order := run.execution_order
    serialized := run.serialized
    error := run.error
    inputs := run.inputs
    outputs := run.outputs.getD ""
    session_id := sessionId
    child_runs := convertChildren sessionId runtimeEnv run.child_runs }
termination_by sizeOf run
decreasing_by
  cases run
  simp
  try omega

/-- The source's `run.child_runs.map((child) => this._convertToCreate(child))`
as explicit recursion over the child list. -/
def convertChildren (sessionId : String) (runtimeEnv : String) :
    List RunV2 → List RunCreate
  | [] => []
  | c :: t =>
    convertToCreate sessionId runtimeEnv c none ::
      convertChildren sessionId runtimeEnv t
termination_by l => sizeOf l
decreasing_by
  all_goals simp
  all_goals omega

end

/-- `persistRun(run)` posts `_convertToCreate(run, this.exampleId)`: the
record submitted for a finalized root run. -/
def persistedRecord (sessionId : String) (runtimeEnv : String)
    (exampleId : Option String) (run : RunV2) : RunCreate :=
  convertToCreate sessionId runtimeEnv run exampleId

/-- A session of the remote store (`TracerSession` of the V2 module). -/
structure SessionV2 where
  id : String
  tenant_id : String
deriving DecidableEq, Repr

/-- The adapter's cached identifiers (`this.tenantId`, `this.session`). -/
structure AdapterState where
  tenantId : Option String
  session : Option SessionV2
deriving DecidableEq, Repr

/-- The requests the adapter can issue to the remote store. -/
inductive RemoteRequest where
  | getTenants
  | createSession (name : String) (tenantId : String)
deriving DecidableEq, Repr

/-- Errors of the persistence adapter, named as the spec's taxonomy. -/
inductive AdapterError where
  | transportFailure (message : String)
  | noTenantAvailable
deriving DecidableEq, Repr

/-- `ensureTenantId`: return the cached tenant id if set; otherwise issue a
tenant query.  `fetchTenants` models the remote response: an error for a
non-success status, `none` for a missing body, otherwise the tenant ids.
An empty or missing list fails; otherwise the first tenant is cached. -/
def ensureTenantId (fetchTenants : Except String (Option (List String)))
    (st : AdapterState) :
    Except AdapterError String × AdapterState × List RemoteRequest :=
  match st.tenantId with
  | some t => (.ok t, st, [])
  | none =>
    match fetchTenants with
    | .error body => (.error (.transportFailure body), st, [.getTenants])
    | .ok none => (.error .noTenantAvailable, st, [.getTenants])
    | .ok (some []) => (.error .noTenantAvailable, st, [.getTenants])
    | .ok (some (t :: _)) =>
      (.ok t, { st with tenantId := some t }, [.getTenants])

/-- `ensureSession`: return the cached session if set; otherwise resolve
the tenant first (so a tenant failure happens before any session-creation
request) and then upsert a session by name.  `createSession name tenant`
models the remote upsert response: an error for a non-success status,
otherwise the assigned session id. -/
def ensureSession (fetchTenants : Except String (Option (List String)))
    (createSession : String → String → Except String String)
    (sessionName : String) (st : AdapterState) :
    Except AdapterError SessionV2 × AdapterState × List RemoteRequest :=
  match st.session with
  | some s => (.ok s, st, [])
  | none =>
    match ensureTenantId fetchTenants st with
    | (.error e, st1, reqs) => (.error e, st1, reqs)
    | (.ok tenantId, st1, reqs) =>
      match createSession sessionName tenantId with
      | .error body =>
        (.error (.transportFailure body), st1,
          reqs ++ [.createSession sessionName tenantId])
      | .ok sid =>
        let s : SessionV2 := { id := sid, tenant_id := tenantId }
        (.ok s, { st1 with session := some s },
          reqs ++ [.createSession sessionName tenantId])

end TracerV2

namespace Tracer

/-!
Concrete states, runs and environments used by the witnesses and
counterexamples below.
-/

/-- Child run id used by the sequential-children trace family. -/
def cid (i : Nat) : String := "child" ++ toString i

/-- Start and End of the i-th leaf child of the root run "R". -/
def seqPair (i : Nat) : List Event :=
  [.llmStart "llm" [] (cid i) (some "R") 0, .llmEnd "out" (cid i) 0]

/-- A root composite run "R", then k complete leaf children started and
ended sequentially, then the start of child k. -/
def seqPrefix (k : Nat) : List Event :=
  .chainStart "chain" "" "R" none 0 ::
    ((List.range k).flatMap seqPair ++ [.llmStart "llm" [] (cid k) (some "R") 0])

/-- A persistence adapter that always fails. -/
def persistFail : Run → Except TracerError Unit :=
  fun _ => .error (.transportFailure "persist failed")

/-- A finalized root llm run named "R". -/
def rootLLM : Run :=
  .llm { uuid := "R", parent_uuid := none, start_time := 0, end_time := 3,
         execution_order := 1, child_execution_order := 1, serialized := "llm",
         session_id := 1, error := none } [] none

/-- A registry holding only `rootLLM`. -/
def stRootLLM : TracerState :=
  { session := some { id := 1, start_time := 0, name := none },
    runMap := [("R", rootLLM)] }

/-- An open root chain run named "R". -/
def chainR : Run :=
  .chain { uuid := "R", parent_uuid := none, start_time := 0, end_time := 0,
           execution_order := 1, child_execution_order := 1,
           serialized := "chain", session_id := 1, error := none } "" none [] [] []

/-- A registry holding only `chainR`. -/
def stChainR : TracerState :=
  { session := some { id := 1, start_time := 0, name := none },
    runMap := [("R", chainR)] }

/-- An open root llm run named "L", an invalid parent for new runs. -/
def llmL : Run :=
  .llm { uuid := "L", parent_uuid := none, start_time := 0, end_time := 0,
         execution_order := 1, child_execution_order := 1, serialized := "llm",
         session_id := 1, error := none } [] none

/-- A registry holding only `llmL`. -/
def stLlmL : TracerState :=
  { session := some { id := 1, start_time := 0, name := none },
    runMap := [("L", llmL)] }

/-- An open llm run "A" whose parent is "R". -/
def llmA : Run :=
  .llm { uuid := "A", parent_uuid := some "R", start_time := 1, end_time := 0,
         execution_order := 2, child_execution_order := 2, serialized := "llm",
         session_id := 1, error := none } [] none

/-- A registry holding the open runs `llmA` and `chainR`. -/
def stChainRA : TracerState :=
  { session := some { id := 1, start_time := 0, name := none },
    runMap := [("A", llmA), ("R", chainR)] }

/-- An environment whose end and error hooks fail. -/
def cfgHookFail : Config :=
  { cfgTriv with
    onLLMEnd := fun _ => .error (.hookFailure "end hook failed")
    onChainError := fun _ => .error (.hookFailure "error hook failed") }

end Tracer

namespace TracerV2

/-- A leaf V2 run. -/
def childV2 : RunV2 :=
  { id := "c", name := "child", start_time := 1, end_time := 2,
    run_type := "llm", serialized := "s", error := none, inputs := "p",
    outputs := none, execution_order := 2, extra := none, child_runs := [] }

/-- A root V2 run with one child. -/
def rootV2 : RunV2 :=
  { id := "r", name := "root", start_time := 0, end_time := 3,
    run_type := "chain", serialized := "s", error := none, inputs := "q",
    outputs := some "o", execution_order := 1, extra := none,
    child_runs := [childV2] }

mutual

/-- Holds when a wire record and every record below it carries no
reference example id. -/
def refFree (rc : RunCreate) : Bool :=
  rc.reference_example_id == none && refFreeList rc.child_runs
termination_by sizeOf rc
decreasing_by
  cases rc
  simp
  try omega

/-- `refFree` on every record of a list. -/
def refFreeList : List RunCreate → Bool
  | [] => true
  | c :: t => refFree c && refFreeList t
termination_by l => sizeOf l
decreasing_by
  all_goals simp
  all_goals omega

end

end TracerV2

namespace Tracer

/-- How a registry entry for `pid` can evolve across lifecycle calls that
never Start a run under the id `pid` itself: it can disappear, but while
present its execution order is fixed and its child-execution-order never
decreases. -/
def registryTracked (m m2 : RunMap) (pid : String) : Prop :=
  (mapGet m pid = none → mapGet m2 pid = none) ∧
  ∀ p p2, mapGet m pid = some p → mapGet m2 pid = some p2 →
    p2.base.execution_order = p.base.execution_order ∧
    p.base.child_execution_order ≤ p2.base.child_execution_order

/-- Every open run's child-execution-order is at least its execution order
(each run starts with the two equal and the former only grows). -/
def mapInv (m : RunMap) : Prop :=
  ∀ id r, mapGet m id = some r →
    r.base.execution_order ≤ r.base.child_execution_order

/-- The tool run "T" as started under "R" (child-execution-order 1) at
time 1: execution order 2. -/
def toolT : Run :=
  Run.tool (RunBase.mk "T" (some "R") 1 0 2 2 "tool" 1 none) "in" none "tool"
    [] [] []

/-- The chain run "C" as started under "R" (child-execution-order 2) at
time 5: execution order 3. -/
def chainC3 : Run :=
  Run.chain (RunBase.mk "C" (some "R") 5 0 3 3 "chain" 1 none) "" none [] [] []

end Tracer

namespace Tracer

theorem mapGet_erase_self (m : RunMap) (k : String) :
    mapGet (mapErase m k) k = none := by
  induction m with
  | nil => rfl
  | cons p t ih =>
    rcases p with ⟨a, v⟩
    by_cases h : a = k
    · subst h
      simpa [mapErase, List.filter_cons, bne_self_eq_false] using ih
    · have hb : (a != k) = true := bne_iff_ne.mpr h
      simpa [mapErase, List.filter_cons, hb, mapGet, h] using ih

theorem mapGet_erase_ne (m : RunMap) {k k2 : String} (h : k2 ≠ k) :
    mapGet (mapErase m k) k2 = mapGet m k2 := by
  induction m with
  | nil => rfl
  | cons p t ih =>
    rcases p with ⟨a, v⟩
    by_cases h1 : a = k
    · subst h1
      have h2 : ¬ a = k2 := fun hc => h (hc ▸ rfl)
      simpa [mapErase, List.filter_cons, bne_self_eq_false, mapGet, h2] using ih
    · have hb : (a != k) = true := bne_iff_ne.mpr h1
      by_cases h2 : a = k2
      · subst h2
        simp [mapErase, List.filter_cons, hb, mapGet, h]
      · simpa [mapErase, List.filter_cons, hb, mapGet, h2] using ih

theorem mapGet_set_self (m : RunMap) (k : String) (v : Run) :
    mapGet (mapSet m k v) k = some v := by
  simp [mapSet, mapGet]

theorem mapGet_set_ne (m : RunMap) {k k2 : String} (v : Run) (h : k2 ≠ k) :
    mapGet (mapSet m k v) k2 = mapGet m k2 := by
  have h2 : ¬ k = k2 := fun hc => h hc.symm
  simp [mapSet, mapGet, h2, mapGet_erase_ne m h]

theorem base_withBase (r : Run) (b : RunBase) : (r.withBase b).base = b := by
  cases r <;> rfl

theorem base_setChildExecutionOrder (r : Run) (n : Nat) :
    (r.setChildExecutionOrder n).base =
      { r.base with child_execution_order := n } := by
  cases r <;> rfl

theorem base_addChildRun (parentRun childRun : Run) :
    (addChildRun parentRun childRun).base = parentRun.base := by
  cases parentRun <;> cases childRun <;> rfl

theorem type_addChildRun (parentRun childRun : Run) :
    (addChildRun parentRun childRun).type = parentRun.type := by
  cases parentRun <;> cases childRun <;> rfl

theorem type_setChildExecutionOrder (r : Run) (n : Nat) :
    (r.setChildExecutionOrder n).type = r.type := by
  cases r <;> rfl

/-- A successful `_startTrace` leaves the started run in the registry. -/
theorem startTrace_ok_lookup {st st1 : TracerState} {run : Run}
    (h : startTrace st run = (.ok (), st1)) :
    mapGet st1.runMap run.base.uuid = some run := by
  unfold startTrace at h
  split at h
  next pid hpid =>
    split at h
    next parentRun hp =>
      split at h
      · cases h
        exact mapGet_set_self _ _ _
      · cases h
    next => cases h
  next =>
    cases h
    exact mapGet_set_self _ _ _

/-- A successful `handleLLMStart` leaves exactly the constructed llm run
(with both order fields equal to the resolved order) at `runId`. -/
theorem handleLLMStart_ok (cfg : Config) (st : TracerState) (name : String)
    (prompts : List String) (runId : String) (parentRunId : Option String)
    (now : Nat) {eo : Nat}
    (hres : getExecutionOrder st.runMap parentRunId = .ok eo)
    (hok : (handleLLMStart cfg st name prompts runId parentRunId now).1 = .ok ()) :
    mapGet (handleLLMStart cfg st name prompts runId parentRunId now).2.runMap
      runId = some (mkLLMRun cfg st name prompts runId parentRunId now eo) := by
  unfold handleLLMStart at hok ⊢
  simp only [hres] at hok ⊢
  rcases hst : startTrace
      { st with session := some (st.session.getD cfg.defaultSession) }
      (mkLLMRun cfg st name prompts runId parentRunId now eo) with ⟨res, st1⟩
  cases res with
  | error e => rw [hst] at hok; simp at hok
  | ok u =>
    have hl := startTrace_ok_lookup hst
    cases hhook : cfg.onLLMStart
        (mkLLMRun cfg st name prompts runId parentRunId now eo) with
    | error e => exact hl
    | ok u2 => exact hl

/-- A successful `handleChainStart` leaves exactly the constructed chain run
at `runId`. -/
theorem handleChainStart_ok (cfg : Config) (st : TracerState)
    (name inputs : String) (runId : String) (parentRunId : Option String)
    (now : Nat) {eo : Nat}
    (hres : getExecutionOrder st.runMap parentRunId = .ok eo)
    (hok : (handleChainStart cfg st name inputs runId parentRunId now).1 = .ok ()) :
    mapGet (handleChainStart cfg st name inputs runId parentRunId now).2.runMap
      runId = some (mkChainRun cfg st name inputs runId parentRunId now eo) := by
  unfold handleChainStart at hok ⊢
  simp only [hres] at hok ⊢
  rcases hst : startTrace
      { st with session := some (st.session.getD cfg.defaultSession) }
      (mkChainRun cfg st name inputs runId parentRunId now eo) with ⟨res, st1⟩
  cases res with
  | error e => rw [hst] at hok; simp at hok
  | ok u =>
    have hl := startTrace_ok_lookup hst
    cases hhook : cfg.onChainStart
        (mkChainRun cfg st name inputs runId parentRunId now eo) with
    | error e => exact hl
    | ok u2 => exact hl

/-- A successful `handleToolStart` leaves exactly the constructed tool run
at `runId`. -/
theorem handleToolStart_ok (cfg : Config) (st : TracerState)
    (name input : String) (runId : String) (parentRunId : Option String)
    (now : Nat) {eo : Nat}
    (hres : getExecutionOrder st.runMap parentRunId = .ok eo)
    (hok : (handleToolStart cfg st name input runId parentRunId now).1 = .ok ()) :
    mapGet (handleToolStart cfg st name input runId parentRunId now).2.runMap
      runId = some (mkToolRun cfg st name input runId parentRunId now eo) := by
  unfold handleToolStart at hok ⊢
  simp only [hres] at hok ⊢
  rcases hst : startTrace
      { st with session := some (st.session.getD cfg.defaultSession) }
      (mkToolRun cfg st name input runId parentRunId now eo) with ⟨res, st1⟩
  cases res with
  | error e => rw [hst] at hok; simp at hok
  | ok u =>
    have hl := startTrace_ok_lookup hst
    cases hhook : cfg.onToolStart
        (mkToolRun cfg st name input runId parentRunId now eo) with
    | error e => exact hl
    | ok u2 => exact hl

/-- C1: For every Start event, the execution order assigned to the new run
is 1 when no parent id is supplied, and the parent's current
child-execution-order plus 1 when a parent id is supplied and present in
the Registry; a supplied but absent parent id fails resolution with
ParentNotFound; and the new run record is constructed with both its
execution-order field and its child-execution-order field equal to the
resolved value. -/
theorem start_execution_order_resolution (cfg : Config) (st : TracerState)
    (m : RunMap) (pid : String) (parentRun : Run) (name inputs input : String)
    (prompts : List String) (runId : String) (parentRunId : Option String)
    (now eo : Nat) :
    (getExecutionOrder m none = .ok 1) ∧
    (mapGet m pid = some parentRun →
      getExecutionOrder m (some pid) =
        .ok (parentRun.base.child_execution_order + 1)) ∧
    (mapGet m pid = none →
      getExecutionOrder m (some pid) = .error (.parentNotFound pid)) ∧
    (getExecutionOrder st.runMap parentRunId = .ok eo →
      (handleLLMStart cfg st name prompts runId parentRunId now).1 = .ok () →
      ∃ run2,
        mapGet (handleLLMStart cfg st name prompts runId parentRunId
          now).2.runMap runId = some run2 ∧
        run2.base.execution_order = eo ∧
        run2.base.child_execution_order = eo) ∧
    (getExecutionOrder st.runMap parentRunId = .ok eo →
      (handleChainStart cfg st name inputs runId parentRunId now).1 = .ok () →
      ∃ run2,
        mapGet (handleChainStart cfg st name inputs runId parentRunId
          now).2.runMap runId = some run2 ∧
        run2.base.execution_order = eo ∧
        run2.base.child_execution_order = eo) ∧
    (getExecutionOrder st.runMap parentRunId = .ok eo →
      (handleToolStart cfg st name input runId parentRunId now).1 = .ok () →
      ∃ run2,
        mapGet (handleToolStart cfg st name input runId parentRunId
          now).2.runMap runId = some run2 ∧
        run2.base.execution_order = eo ∧
        run2.base.child_execution_order = eo) := by
  refine ⟨rfl, ?_, ?_, ?_, ?_, ?_⟩
  · intro h
    simp [getExecutionOrder, h]
  · intro h
    simp [getExecutionOrder, h]
  · intro hres hok
    exact ⟨mkLLMRun cfg st name prompts runId parentRunId now eo,
      handleLLMStart_ok cfg st name prompts runId parentRunId now hres hok,
      rfl, rfl⟩
  · intro hres hok
    exact ⟨mkChainRun cfg st name inputs runId parentRunId now eo,
      handleChainStart_ok cfg st name inputs runId parentRunId now hres hok,
      rfl, rfl⟩
  · intro hres hok
    exact ⟨mkToolRun cfg st name input runId parentRunId now eo,
      handleToolStart_ok cfg st name input runId parentRunId now hres hok,
      rfl, rfl⟩

/-- Witness for C1 at a concrete registry: a root resolves to 1, a child of
the open chain "R" (child-execution-order 1) resolves to 2, a missing
parent fails, and the started run carries 2 in both order fields. -/
theorem start_execution_order_resolution_witness :
    getExecutionOrder stChainR.runMap none = .ok 1 ∧
    getExecutionOrder stChainR.runMap (some "R") =
      .ok (chainR.base.child_execution_order + 1) ∧
    getExecutionOrder [] (some "R") = .error (.parentNotFound "R") ∧
    (∃ run2,
      mapGet (handleLLMStart cfgTriv stChainR "n" [] "B" (some "R")
        5).2.runMap "B" = some run2 ∧
      run2.base.execution_order = 2 ∧
      run2.base.child_execution_order = 2) := by
  have h := start_execution_order_resolution cfgTriv stChainR stChainR.runMap
    "R" chainR "n" "" "" [] "B" (some "R") 5 2
  have h0 := start_execution_order_resolution cfgTriv stChainR ([] : RunMap)
    "R" chainR "n" "" "" [] "B" (some "R") 5 2
  exact ⟨h.1, h.2.1 (by rfl), h0.2.2.1 rfl,
    h.2.2.2.1 (by rfl) (by rfl)⟩

/-- C2: For every End or Fail event on a run with a parent, Close updates
the parent's child-execution-order to the max of the parent's current value
and the closing run's value and removes the closing run, failing with
ParentNotFound if the parent is gone; for a parentless run, Close submits
the run to the persistence adapter and then removes it. -/
theorem close_parent_update_and_removal
    (persist : Run → Except TracerError Unit) (st : TracerState)
    (run parentRun : Run) (pid : String) :
    (run.base.parent_uuid = some pid → mapGet st.runMap pid = some parentRun →
      endTrace persist st run =
        (.ok (), { st with
          runMap := mapErase
            (mapSet st.runMap pid
              (parentRun.setChildExecutionOrder
                (max parentRun.base.child_execution_order
                  run.base.child_execution_order)))
            run.base.uuid })) ∧
    (run.base.parent_uuid = some pid → mapGet st.runMap pid = none →
      endTrace persist st run = (.error (.parentNotFound pid), st)) ∧
    (run.base.parent_uuid = none → persist run = .ok () →
      endTrace persist st run =
        (.ok (), { st with runMap := mapErase st.runMap run.base.uuid })) ∧
    (run.base.parent_uuid = some pid → mapGet st.runMap pid = some parentRun →
      mapGet (endTrace persist st run).2.runMap run.base.uuid = none) ∧
    (run.base.parent_uuid = some pid → mapGet st.runMap pid = some parentRun →
      pid ≠ run.base.uuid →
      mapGet (endTrace persist st run).2.runMap pid =
        some (parentRun.setChildExecutionOrder
          (max parentRun.base.child_execution_order
            run.base.child_execution_order))) ∧
    (run.base.parent_uuid = none → persist run = .ok () →
      mapGet (endTrace persist st run).2.runMap run.base.uuid = none) := by
  refine ⟨?_, ?_, ?_, ?_, ?_, ?_⟩
  · intro hpar hp
    unfold endTrace
    simp only [hpar, hp]
  · intro hpar hp
    unfold endTrace
    simp only [hpar, hp]
  · intro hpar hp
    unfold endTrace
    simp only [hpar, hp]
  · intro hpar hp
    unfold endTrace
    simp only [hpar, hp]
    exact mapGet_erase_self _ _
  · intro hpar hp hne
    unfold endTrace
    simp only [hpar, hp]
    rw [mapGet_erase_ne _ hne, mapGet_set_self]
  · intro hpar hp
    unfold endTrace
    simp only [hpar, hp]
    exact mapGet_erase_self _ _

/-- Witness for C2: closing "A" (child-execution-order 2) under the open
chain "R" (child-execution-order 1) raises "R" to 2 and removes "A"; with
the parent gone the close fails with ParentNotFound; closing the root
"R" with a succeeding adapter removes it. -/
theorem close_parent_update_and_removal_witness :
    (endTrace (fun _ => Except.ok ()) stChainRA llmA).1 = .ok () ∧
    mapGet (endTrace (fun _ => Except.ok ()) stChainRA llmA).2.runMap "A" =
      none ∧
    mapGet (endTrace (fun _ => Except.ok ()) stChainRA llmA).2.runMap "R" =
      some (chainR.setChildExecutionOrder
        (max chainR.base.child_execution_order
          llmA.base.child_execution_order)) ∧
    endTrace (fun _ => Except.ok ())
        { session := none, runMap := [] } llmA =
      (.error (.parentNotFound "R"), { session := none, runMap := [] }) ∧
    (endTrace (fun _ => Except.ok ()) stRootLLM rootLLM).1 = .ok () ∧
    mapGet (endTrace (fun _ => Except.ok ()) stRootLLM rootLLM).2.runMap "R" =
      none := by
  have h1 := close_parent_update_and_removal (fun _ => Except.ok ())
    stChainRA llmA chainR "R"
  have h2 := close_parent_update_and_removal (fun _ => Except.ok ())
    { session := none, runMap := [] } llmA chainR "R"
  have h3 := close_parent_update_and_removal (fun _ => Except.ok ())
    stRootLLM rootLLM chainR "R"
  refine ⟨?_, ?_, ?_, ?_, ?_, ?_⟩
  · rw [h1.1 rfl (by rfl)]
  · exact h1.2.2.2.1 rfl (by rfl)
  · exact h1.2.2.2.2.1 rfl (by rfl) (by decide)
  · exact h2.2.1 rfl rfl
  · rw [h3.2.2.1 rfl rfl]
  · exact h3.2.2.2.2.2 rfl rfl

/-- C5 counterexample: with a failing persistence adapter, closing the
root run "R" surfaces the persistence error while "R" is still in the
Registry — the removal has not happened by the time the error surfaces,
contrary to the claim. -/
theorem close_always_removes_counterexample :
    (endTrace persistFail stRootLLM rootLLM).1 =
      .error (.transportFailure "persist failed") ∧
    (endTrace persistFail stRootLLM rootLLM).2 = stRootLLM ∧
    mapGet (endTrace persistFail stRootLLM rootLLM).2.runMap "R" =
      some rootLLM := by
  refine ⟨rfl, rfl, by rfl⟩

/-- C5 (amended): Close removes the closing run from the Registry whenever
it completes without error (successful root persistence, or parent
update); but when persistence of a root run fails, the delete is skipped:
the error propagates with the Registry unchanged, so the root is still
present when the error surfaces. -/
theorem close_removal_on_success
    (persist : Run → Except TracerError Unit) (st : TracerState)
    (run parentRun : Run) (pid : String) (e : TracerError) :
    (run.base.parent_uuid = none → persist run = .ok () →
      (endTrace persist st run).1 = .ok () ∧
      mapGet (endTrace persist st run).2.runMap run.base.uuid = none) ∧
    (run.base.parent_uuid = some pid → mapGet st.runMap pid = some parentRun →
      (endTrace persist st run).1 = .ok () ∧
      mapGet (endTrace persist st run).2.runMap run.base.uuid = none) ∧
    (run.base.parent_uuid = none → persist run = .error e →
      endTrace persist st run = (.error e, st)) := by
  refine ⟨?_, ?_, ?_⟩
  · intro hpar hp
    refine ⟨?_, ?_⟩
    · unfold endTrace
      simp [hpar, hp]
    · unfold endTrace
      simp only [hpar, hp]
      exact mapGet_erase_self _ _
  · intro hpar hp
    refine ⟨?_, ?_⟩
    · unfold endTrace
      simp [hpar, hp]
    · unfold endTrace
      simp only [hpar, hp]
      exact mapGet_erase_self _ _
  · intro hpar hp
    unfold endTrace
    simp only [hpar, hp]

/-- Witness for C5 (amended): closing the root "R" with a succeeding
adapter removes it; with a failing adapter the error propagates and the
state is untouched. -/
theorem close_removal_on_success_witness :
    ((endTrace (fun _ => Except.ok ()) stRootLLM rootLLM).1 = .ok () ∧
      mapGet (endTrace (fun _ => Except.ok ())
        stRootLLM rootLLM).2.runMap "R" = none) ∧
    endTrace persistFail stRootLLM rootLLM =
      (.error (.transportFailure "persist failed"), stRootLLM) := by
  have h1 := close_removal_on_success (fun _ => Except.ok ()) stRootLLM
    rootLLM chainR "R" (.transportFailure "persist failed")
  have h2 := close_removal_on_success persistFail stRootLLM
    rootLLM chainR "R" (.transportFailure "persist failed")
  exact ⟨h1.1 rfl rfl, h2.2.2 rfl rfl⟩

/-- C7: For every Start event naming a parent id absent from the Registry,
the operation fails with ParentNotFound and the Registry is left exactly
as it was: no run inserted, no child collection modified. -/
theorem start_missing_parent_no_mutation (cfg : Config) (st : TracerState)
    (pid name inputs input : String) (prompts : List String) (runId : String)
    (now : Nat) (h : mapGet st.runMap pid = none) :
    (handleLLMStart cfg st name prompts runId (some pid) now).1 =
      .error (.parentNotFound pid) ∧
    (handleLLMStart cfg st name prompts runId (some pid) now).2.runMap =
      st.runMap ∧
    (handleChainStart cfg st name inputs runId (some pid) now).1 =
      .error (.parentNotFound pid) ∧
    (handleChainStart cfg st name inputs runId (some pid) now).2.runMap =
      st.runMap ∧
    (handleToolStart cfg st name input runId (some pid) now).1 =
      .error (.parentNotFound pid) ∧
    (handleToolStart cfg st name input runId (some pid) now).2.runMap =
      st.runMap := by
  refine ⟨?_, ?_, ?_, ?_, ?_, ?_⟩ <;>
    first
      | (unfold handleLLMStart; simp [getExecutionOrder, h])
      | (unfold handleChainStart; simp [getExecutionOrder, h])
      | (unfold handleToolStart; simp [getExecutionOrder, h])

/-- Witness for C7: starting under the unknown parent "missing" in a
registry holding only the chain "R" fails and leaves the registry map
untouched. -/
theorem start_missing_parent_no_mutation_witness :
    mapGet stChainR.runMap "missing" = none ∧
    ((handleLLMStart cfgTriv stChainR "n" [] "B" (some "missing") 7).1 =
      .error (.parentNotFound "missing") ∧
    (handleLLMStart cfgTriv stChainR "n" [] "B" (some "missing") 7).2.runMap =
      stChainR.runMap ∧
    (handleChainStart cfgTriv stChainR "n" "" "B" (some "missing") 7).1 =
      .error (.parentNotFound "missing") ∧
    (handleChainStart cfgTriv stChainR "n" "" "B" (some "missing") 7).2.runMap =
      stChainR.runMap ∧
    (handleToolStart cfgTriv stChainR "n" "" "B" (some "missing") 7).1 =
      .error (.parentNotFound "missing") ∧
    (handleToolStart cfgTriv stChainR "n" "" "B" (some "missing") 7).2.runMap =
      stChainR.runMap) :=
  ⟨by rfl,
    start_missing_parent_no_mutation cfgTriv stChainR "missing" "n" "" "" []
      "B" 7 (by rfl)⟩

/-- C8: For every Start event whose parent id resolves to a compute (llm)
run, the operation fails with InvalidParentKind and the new run is not
inserted; a chain or tool parent accepts the child, which is appended to
the parent's matching child collection. -/
theorem start_under_compute_parent (cfg : Config) (st : TracerState)
    (pid name inputs input : String) (prompts : List String) (runId : String)
    (now : Nat) (parentRun run : Run) :
    (mapGet st.runMap pid = some parentRun → parentRun.type = .llm →
      (handleLLMStart cfg st name prompts runId (some pid) now).1 =
        .error .invalidParentKind ∧
      (handleLLMStart cfg st name prompts runId (some pid) now).2.runMap =
        st.runMap) ∧
    (mapGet st.runMap pid = some parentRun → parentRun.type = .llm →
      (handleChainStart cfg st name inputs runId (some pid) now).1 =
        .error .invalidParentKind ∧
      (handleChainStart cfg st name inputs runId (some pid) now).2.runMap =
        st.runMap) ∧
    (mapGet st.runMap pid = some parentRun → parentRun.type = .llm →
      (handleToolStart cfg st name input runId (some pid) now).1 =
        .error .invalidParentKind ∧
      (handleToolStart cfg st name input runId (some pid) now).2.runMap =
        st.runMap) ∧
    (mapGet st.runMap pid = some parentRun → run.base.parent_uuid = some pid →
      parentRun.type = .tool ∨ parentRun.type = .chain →
      startTrace st run =
        (.ok (), { st with
          runMap := mapSet (mapSet st.runMap pid (addChildRun parentRun run))
            run.base.uuid run })) := by
  refine ⟨?_, ?_, ?_, ?_⟩
  · intro hp hk
    unfold handleLLMStart startTrace
    simp [getExecutionOrder, hp, mkLLMRun, Run.base, hk]
  · intro hp hk
    unfold handleChainStart startTrace
    simp [getExecutionOrder, hp, mkChainRun, Run.base, hk]
  · intro hp hk
    unfold handleToolStart startTrace
    simp [getExecutionOrder, hp, mkToolRun, Run.base, hk]
  · intro hp hpar hkind
    unfold startTrace
    simp only [hpar, hp]
    rw [if_pos hkind]

/-- Witness for C8: starting under the open llm run "L" fails with
InvalidParentKind and leaves the registry untouched; registering the llm
child "A" under the open chain "R" succeeds and appends it. -/
theorem start_under_compute_parent_witness :
    ((handleLLMStart cfgTriv stLlmL "n" [] "B" (some "L") 7).1 =
      .error .invalidParentKind ∧
    (handleLLMStart cfgTriv stLlmL "n" [] "B" (some "L") 7).2.runMap =
      stLlmL.runMap) ∧
    ((handleChainStart cfgTriv stLlmL "n" "" "B" (some "L") 7).1 =
      .error .invalidParentKind ∧
    (handleChainStart cfgTriv stLlmL "n" "" "B" (some "L") 7).2.runMap =
      stLlmL.runMap) ∧
    ((handleToolStart cfgTriv stLlmL "n" "" "B" (some "L") 7).1 =
      .error .invalidParentKind ∧
    (handleToolStart cfgTriv stLlmL "n" "" "B" (some "L") 7).2.runMap =
      stLlmL.runMap) ∧
    startTrace stChainR llmA =
      (.ok (), { stChainR with
        runMap := mapSet (mapSet stChainR.runMap "R" (addChildRun chainR llmA))
          "A" llmA }) := by
  have h1 := start_under_compute_parent cfgTriv stLlmL "L" "n" "" "" [] "B" 7
    llmL llmA
  have h2 := start_under_compute_parent cfgTriv stChainR "R" "n" "" "" [] "B" 7
    chainR llmA
  exact ⟨h1.1 (by rfl) rfl, h1.2.1 (by rfl) rfl, h1.2.2.1 (by rfl) rfl,
    h2.2.2.2 (by rfl) rfl (Or.inr rfl)⟩

/-- C10: For every End or Fail event whose kind-specific end/error hook
raises an error, the error propagates and Close is never performed: the
run stays in the Registry with its end timestamp and success payload (or
error message) already set, and every other entry — in particular the
parent of a non-root run — is untouched.  Shown for `handleLLMEnd` and
`handleChainError`. -/
theorem end_hook_failure_preserves_run (cfg : Config) (st : TracerState)
    (runId : String) (b : RunBase) (prompts : List String)
    (resp outputsOld : Option String) (i output message : String)
    (cl cc ct : List Run) (now : Nat) (e : TracerError) :
    (mapGet st.runMap runId = some (Run.llm b prompts resp) →
      cfg.onLLMEnd (Run.llm { b with end_time := now } prompts (some output)) =
        .error e →
      handleLLMEnd cfg st output runId now =
        (.error e, { st with
          runMap := mapSet st.runMap runId
            (Run.llm { b with end_time := now } prompts (some output)) }) ∧
      mapGet (handleLLMEnd cfg st output runId now).2.runMap runId =
        some (Run.llm { b with end_time := now } prompts (some output)) ∧
      (∀ k, k ≠ runId →
        mapGet (handleLLMEnd cfg st output runId now).2.runMap k =
          mapGet st.runMap k)) ∧
    (mapGet st.runMap runId = some (Run.chain b i outputsOld cl cc ct) →
      cfg.onChainError
          (Run.chain { b with end_time := now, error := some message }
            i outputsOld cl cc ct) =
        .error e →
      handleChainError cfg st message runId now =
        (.error e, { st with
          runMap := mapSet st.runMap runId
            (Run.chain { b with end_time := now, error := some message }
              i outputsOld cl cc ct) }) ∧
      mapGet (handleChainError cfg st message runId now).2.runMap runId =
        some (Run.chain { b with end_time := now, error := some message }
          i outputsOld cl cc ct) ∧
      (∀ k, k ≠ runId →
        mapGet (handleChainError cfg st message runId now).2.runMap k =
          mapGet st.runMap k)) := by
  refine ⟨?_, ?_⟩
  · intro hr hhook
    unfold handleLLMEnd
    simp only [hr, hhook]
    exact ⟨trivial, mapGet_set_self _ _ _, fun k hk => mapGet_set_ne _ _ hk⟩
  · intro hr hhook
    unfold handleChainError
    simp only [hr, hhook]
    exact ⟨trivial, mapGet_set_self _ _ _, fun k hk => mapGet_set_ne _ _ hk⟩

/-- Witness for C10: with failing end/error hooks, ending the llm run "A"
surfaces the hook error, leaves the finalized "A" in the registry, and
does not touch its parent "R"; failing the chain "R" behaves likewise. -/
theorem end_hook_failure_preserves_run_witness :
    ((handleLLMEnd cfgHookFail stChainRA "out" "A" 9).1 =
      .error (.hookFailure "end hook failed") ∧
    mapGet (handleLLMEnd cfgHookFail stChainRA "out" "A" 9).2.runMap "A" =
      some (Run.llm { llmA.base with end_time := 9 } [] (some "out")) ∧
    mapGet (handleLLMEnd cfgHookFail stChainRA "out" "A" 9).2.runMap "R" =
      mapGet stChainRA.runMap "R") ∧
    ((handleChainError cfgHookFail stChainRA "boom" "R" 9).1 =
      .error (.hookFailure "error hook failed") ∧
    mapGet (handleChainError cfgHookFail stChainRA "boom" "R" 9).2.runMap "R" =
      some (Run.chain
        { chainR.base with end_time := 9, error := some "boom" }
        "" none [] [] [])) := by
  have h1 := (end_hook_failure_preserves_run cfgHookFail stChainRA "A"
    llmA.base [] none none "" "out" "boom" [] [] [] 9
    (.hookFailure "end hook failed")).1 (by rfl) (by rfl)
  have h2 := (end_hook_failure_preserves_run cfgHookFail stChainRA "R"
    chainR.base [] none none "" "out" "boom" [] [] [] 9
    (.hookFailure "error hook failed")).2 (by rfl) (by rfl)
  refine ⟨⟨?_, h1.2.1, h1.2.2 "R" (by decide)⟩, ⟨?_, h2.2.1⟩⟩
  · rw [h1.1]
  · rw [h2.1]

end Tracer

namespace TracerV2

theorem convertChildren_eq_map (s rt : String) (l : List RunV2) :
    convertChildren s rt l = l.map (fun c => convertToCreate s rt c none) := by
  induction l with
  | nil =>
    unfold convertChildren
    rfl
  | cons c t ih =>
    unfold convertChildren
    rw [ih]
    rfl

theorem convert_ref (s rt : String) (ex : Option String) (run : RunV2) :
    (convertToCreate s rt run ex).reference_example_id = ex := by
  unfold convertToCreate
  rfl

theorem convert_child_runs (s rt : String) (ex : Option String) (run : RunV2) :
    (convertToCreate s rt run ex).child_runs =
      run.child_runs.map (fun c => convertToCreate s rt c none) := by
  have h : (convertToCreate s rt run ex).child_runs =
      convertChildren s rt run.child_runs := by
    unfold convertToCreate
    rfl
  rw [h, convertChildren_eq_map]

theorem refFree_eq (rc : RunCreate) :
    refFree rc =
      ((rc.reference_example_id == none) && refFreeList rc.child_runs) := by
  unfold refFree
  rfl

/-- C6 counterexample: converting a root with one child under reference
example id "ex" puts "ex" on the root record but `none` — not "ex" — on
the converted child, so the id is not applied uniformly to the subtree. -/
theorem reference_example_counterexample :
    (persistedRecord "sess" "rt" (some "ex") rootV2).reference_example_id =
      some "ex" ∧
    (persistedRecord "sess" "rt" (some "ex") rootV2).child_runs.map
      (fun c => c.reference_example_id) = [none] := by
  constructor
  · unfold persistedRecord
    rw [convert_ref]
  · unfold persistedRecord
    rw [convert_child_runs]
    rw [show rootV2.child_runs = [childV2] from rfl]
    simp only [List.map_cons, List.map_nil]
    rw [convert_ref]

/-- Every record produced by a conversion that passes no example id is
reference-free together with its whole subtree. -/
theorem refFree_convert (s rt : String) (run : RunV2) :
    refFree (convertToCreate s rt run none) = true := by
  rw [refFree_eq, convert_ref, convert_child_runs]
  simp only [beq_self_eq_true, Bool.true_and]
  have hlist : ∀ l : List RunV2,
      (∀ c ∈ l, refFree (convertToCreate s rt c none) = true) →
      refFreeList (l.map (fun c => convertToCreate s rt c none)) = true := by
    intro l
    induction l with
    | nil =>
      intro _
      simp only [List.map_nil, refFreeList]
    | cons c t ih =>
      intro h
      simp only [List.map_cons, refFreeList]
      rw [h c (List.mem_cons_self c t),
        ih (fun x hx => h x (List.mem_cons_of_mem c hx))]
      rfl
  apply hlist
  intro c hc
  exact refFree_convert s rt c
termination_by sizeOf run
decreasing_by
  have h := List.sizeOf_lt_of_mem hc
  cases run
  simp_all
  omega

/-- C6 (amended): the reference example id supplied to the Persistence
Adapter is applied to the root wire record only; every recursively
converted descendant carries no reference example id. -/
theorem reference_example_root_only (sessionId runtimeEnv : String)
    (exampleId : Option String) (run : RunV2) :
    (persistedRecord sessionId runtimeEnv exampleId run).reference_example_id =
      exampleId ∧
    ∀ c ∈ (persistedRecord sessionId runtimeEnv exampleId run).child_runs,
      refFree c = true := by
  constructor
  · unfold persistedRecord
    rw [convert_ref]
  · unfold persistedRecord
    rw [convert_child_runs]
    intro c hc
    rw [List.mem_map] at hc
    obtain ⟨child, hchild, rfl⟩ := hc
    exact refFree_convert sessionId runtimeEnv child

/-- Witness for C6 (amended): at the concrete tree `rootV2` the root
record carries "ex" and the converted child is reference-free. -/
theorem reference_example_root_only_witness :
    (persistedRecord "sess" "rt" (some "ex") rootV2).reference_example_id =
      some "ex" ∧
    refFree (convertToCreate "sess" "rt" childV2 none) = true := by
  have h := reference_example_root_only "sess" "rt" (some "ex") rootV2
  refine ⟨h.1, ?_⟩
  apply h.2
  unfold persistedRecord
  rw [convert_child_runs]
  rw [show rootV2.child_runs = [childV2] from rfl]
  simp

/-- C9: A tenant query answered by an empty (or missing) tenant list makes
the persistence attempt fail with NoTenantAvailable before any
session-creation request is issued; a cached session or tenant id is
returned as-is with no remote request; and a successful first tenant
lookup caches the first tenant id. -/
theorem tenant_resolution_and_caching
    (fetchTenants : Except String (Option (List String)))
    (createSession : String → String → Except String String)
    (sessionName t : String) (ts : List String) (st : AdapterState)
    (s : SessionV2) :
    (st.tenantId = none → st.session = none → fetchTenants = .ok none →
      ensureSession fetchTenants createSession sessionName st =
        (.error .noTenantAvailable, st, [.getTenants])) ∧
    (st.tenantId = none → st.session = none → fetchTenants = .ok (some []) →
      ensureSession fetchTenants createSession sessionName st =
        (.error .noTenantAvailable, st, [.getTenants])) ∧
    (st.session = some s →
      ensureSession fetchTenants createSession sessionName st =
        (.ok s, st, [])) ∧
    (st.tenantId = some t →
      ensureTenantId fetchTenants st = (.ok t, st, [])) ∧
    (st.tenantId = none → fetchTenants = .ok (some (t :: ts)) →
      ensureTenantId fetchTenants st =
        (.ok t, { st with tenantId := some t }, [.getTenants])) := by
  refine ⟨?_, ?_, ?_, ?_, ?_⟩
  · intro ht hs hf
    unfold ensureSession ensureTenantId
    simp only [ht, hs, hf]
  · intro ht hs hf
    unfold ensureSession ensureTenantId
    simp only [ht, hs, hf]
  · intro hs
    unfold ensureSession
    simp only [hs]
  · intro ht
    unfold ensureTenantId
    simp only [ht]
  · intro ht hf
    unfold ensureTenantId
    simp only [ht, hf]

/-- Witness for C9: with no cache and an empty tenant list the session
resolution fails with NoTenantAvailable after only the tenant query; a
cached session and a cached tenant id are reused without any request; a
first lookup caches tenant "t1". -/
theorem tenant_resolution_and_caching_witness :
    ensureSession (.ok (some [])) (fun _ _ => .ok "sid") "default"
        { tenantId := none, session := none } =
      (.error .noTenantAvailable, { tenantId := none, session := none },
        [.getTenants]) ∧
    ensureSession (.ok (some ["t1"])) (fun _ _ => .ok "sid") "default"
        { tenantId := some "t0",
          session := some { id := "s0", tenant_id := "t0" } } =
      (.ok { id := "s0", tenant_id := "t0" },
        { tenantId := some "t0",
          session := some { id := "s0", tenant_id := "t0" } }, []) ∧
    ensureTenantId (.ok (some ["t1"]))
        { tenantId := some "t0", session := none } =
      (.ok "t0", { tenantId := some "t0", session := none }, []) ∧
    ensureTenantId (.ok (some ["t1"]))
        { tenantId := none, session := none } =
      (.ok "t1", { tenantId := some "t1", session := none },
        [.getTenants]) := by
  have h1 := tenant_resolution_and_caching (.ok (some []))
    (fun _ _ => .ok "sid") "default" "t1" []
    { tenantId := none, session := none } { id := "s0", tenant_id := "t0" }
  have h2 := tenant_resolution_and_caching (.ok (some ["t1"]))
    (fun _ _ => .ok "sid") "default" "t1" []
    { tenantId := some "t0",
      session := some { id := "s0", tenant_id := "t0" } }
    { id := "s0", tenant_id := "t0" }
  have h3 := tenant_resolution_and_caching (.ok (some ["t1"]))
    (fun _ _ => .ok "sid") "default" "t0" []
    { tenantId := some "t0", session := none } { id := "s0", tenant_id := "t0" }
  have h4 := tenant_resolution_and_caching (.ok (some ["t1"]))
    (fun _ _ => .ok "sid") "default" "t1" []
    { tenantId := none, session := none } { id := "s0", tenant_id := "t0" }
  exact ⟨h1.2.1 rfl rfl rfl, h2.2.2.1 rfl, h3.2.2.2.1 rfl,
    h4.2.2.2.2 rfl rfl⟩

end TracerV2

namespace Tracer

theorem runEvents_append (cfg : Config) (st : TracerState)
    (es es2 : List Event) :
    runEvents cfg st (es ++ es2) = runEvents cfg (runEvents cfg st es) es2 := by
  induction es generalizing st with
  | nil => rfl
  | cons e t ih =>
    show runEvents cfg (step cfg st e).2 (t ++ es2) =
      runEvents cfg (runEvents cfg (step cfg st e).2 t) es2
    exact ih (step cfg st e).2

theorem cid_ne_R (i : Nat) : cid i ≠ "R" := by
  intro h
  have h2 := congrArg String.length h
  unfold cid at h2
  rw [String.length_append] at h2
  rw [show ("child".length = 5) from rfl, show ("R".length = 1) from rfl] at h2
  omega

/-- Starting the leaf child `cid k` under the open chain "R" resolves the
order to the parent's child-execution-order + 1, appends the child to the
parent and registers it. -/
theorem llmStartOnR (st : TracerState) (k : Nat) (b : RunBase)
    (cl : List Run)
    (hR : mapGet st.runMap "R" = some (Run.chain b "" none cl [] [])) :
    step cfgTriv st (.llmStart "llm" [] (cid k) (some "R") 0) =
      (.ok (),
        { session := some (st.session.getD cfgTriv.defaultSession)
          runMap := mapSet
            (mapSet st.runMap "R"
              (Run.chain b "" none
                (cl ++ [mkLLMRun cfgTriv st "llm" [] (cid k) (some "R") 0
                  (b.child_execution_order + 1)]) [] []))
            (cid k)
            (mkLLMRun cfgTriv st "llm" [] (cid k) (some "R") 0
              (b.child_execution_order + 1)) }) := by
  unfold step handleLLMStart
  simp only [getExecutionOrder, hR, Run.base, startTrace, mkLLMRun, Run.type,
    addChildRun, cfgTriv, or_true, if_true]

/-- Starting and then ending the leaf child `cid k` under the open chain
"R" leaves "R" open with its child-execution-order advanced by one. -/
theorem seqPairStep (st : TracerState) (k : Nat) (b : RunBase)
    (cl : List Run)
    (hR : mapGet st.runMap "R" = some (Run.chain b "" none cl [] [])) :
    ∃ b2 cl2,
      mapGet (runEvents cfgTriv st (seqPair k)).runMap "R" =
        some (Run.chain b2 "" none cl2 [] []) ∧
      b2.child_execution_order = b.child_execution_order + 1 := by
  have hne : ("R" : String) ≠ cid k := fun hh => cid_ne_R k hh.symm
  have h1 := llmStartOnR st k b cl hR
  have hrw : runEvents cfgTriv st (seqPair k) =
      (step cfgTriv
        (step cfgTriv st (.llmStart "llm" [] (cid k) (some "R") 0)).2
        (.llmEnd "out" (cid k) 0)).2 := rfl
  rw [hrw, h1]
  unfold step handleLLMEnd
  simp only [mapGet_set_self, mkLLMRun]
  unfold endTrace
  simp only [cfgTriv, mapGet_set_ne _ _ hne, mapGet_set_self,
    Run.setChildExecutionOrder, Run.withBase, Run.base]
  rw [mapGet_erase_ne _ hne, mapGet_set_self]
  refine ⟨_, _, rfl, ?_⟩
  exact max_eq_right (Nat.le_succ _)

/-- After the root chain "R" and k complete sequential leaf children, "R"
is open with child-execution-order k + 1. -/
theorem seqLoopR (k : Nat) :
    ∃ b cl,
      mapGet (stateAfter cfgTriv
        (Event.chainStart "chain" "" "R" none 0 ::
          (List.range k).flatMap seqPair)).runMap "R" =
        some (Run.chain b "" none cl [] []) ∧
      b.child_execution_order = k + 1 := by
  induction k with
  | zero =>
    exact ⟨RunBase.mk "R" none 0 0 1 1 "chain" 1 none, [], by rfl, rfl⟩
  | succ k ih =>
    obtain ⟨b, cl, hR, hceo⟩ := ih
    have hsplit : Event.chainStart "chain" "" "R" none 0 ::
        (List.range (k + 1)).flatMap seqPair =
        (Event.chainStart "chain" "" "R" none 0 ::
          (List.range k).flatMap seqPair) ++ seqPair k := by
      rw [List.range_succ, List.flatMap_append]
      simp
    rw [stateAfter, hsplit, runEvents_append]
    obtain ⟨b2, cl2, hR2, hceo2⟩ :=
      seqPairStep (stateAfter cfgTriv
        (Event.chainStart "chain" "" "R" none 0 ::
          (List.range k).flatMap seqPair)) k b cl hR
    rw [stateAfter] at hR2
    exact ⟨b2, cl2, hR2, by rw [hceo2, hceo]⟩

theorem stateAfter_append (cfg : Config) (es es2 : List Event) :
    stateAfter cfg (es ++ es2) = runEvents cfg (stateAfter cfg es) es2 := by
  rw [stateAfter, stateAfter, runEvents_append]

/-- C4 counterexample: in the call sequence [Start chain "R" (root); Start
llm "A" under "R"], "A" is the 1st child started under "R", yet its
execution order is 2 (the root's child-execution-order 1, plus 1), not 1
as the claim requires. -/
theorem nth_child_equals_n_counterexample :
    (mapGet (stateAfter cfgTriv
      [.chainStart "chain" "" "R" none 0,
       .llmStart "llm" [] "A" (some "R") 1]).runMap "A").map
      (fun r => r.base.execution_order) = some 2 ∧
    (mapGet (stateAfter cfgTriv
      [.chainStart "chain" "" "R" none 0,
       .llmStart "llm" [] "A" (some "R") 1]).runMap "A").map
      (fun r => r.base.execution_order) ≠ some 1 := by
  have h : (mapGet (stateAfter cfgTriv
      [.chainStart "chain" "" "R" none 0,
       .llmStart "llm" [] "A" (some "R") 1]).runMap "A").map
      (fun r => r.base.execution_order) = some 2 := by rfl
  refine ⟨h, ?_⟩
  rw [h]
  simp

/-- C4 (amended): when a root composite run's leaf children are started
and ended sequentially (each child ended before the next starts), the
execution order of the Nth child started under the root equals N plus the
root's execution order, i.e. N + 1 — not N.  Stated with 0-based k: child
k is the (k+1)-th child and receives order k + 2. -/
theorem nth_child_sequential_order (k : Nat) :
    (mapGet (stateAfter cfgTriv (seqPrefix k)).runMap (cid k)).map
      (fun r => r.base.execution_order) = some (k + 2) := by
  obtain ⟨b, cl, hR, hceo⟩ := seqLoopR k
  have hstep := llmStartOnR (stateAfter cfgTriv
    (Event.chainStart "chain" "" "R" none 0 ::
      (List.range k).flatMap seqPair)) k b cl hR
  have hsplit : seqPrefix k =
      (Event.chainStart "chain" "" "R" none 0 ::
        (List.range k).flatMap seqPair) ++
        [Event.llmStart "llm" [] (cid k) (some "R") 0] := rfl
  rw [hsplit, stateAfter_append]
  rw [show runEvents cfgTriv (stateAfter cfgTriv
      (Event.chainStart "chain" "" "R" none 0 ::
        (List.range k).flatMap seqPair))
      [Event.llmStart "llm" [] (cid k) (some "R") 0] =
    (step cfgTriv (stateAfter cfgTriv
      (Event.chainStart "chain" "" "R" none 0 ::
        (List.range k).flatMap seqPair))
      (Event.llmStart "llm" [] (cid k) (some "R") 0)).2 from rfl]
  rw [hstep]
  simp only [mapGet_set_self, mkLLMRun, Run.base, Option.map_some']
  rw [hceo]

theorem tracked_refl (m : RunMap) (pid : String) : registryTracked m m pid := by
  refine ⟨id, fun p p2 h1 h2 => ?_⟩
  rw [h1] at h2
  injection h2 with h3
  subst h3
  exact ⟨rfl, le_refl _⟩

theorem tracked_trans {m1 m2 m3 : RunMap} {pid : String}
    (t1 : registryTracked m1 m2 pid) (t2 : registryTracked m2 m3 pid) :
    registryTracked m1 m3 pid := by
  refine ⟨fun h => t2.1 (t1.1 h), fun p p3 h1 h3 => ?_⟩
  cases hm : mapGet m2 pid with
  | none =>
    rw [t2.1 hm] at h3
    cases h3
  | some p2 =>
    obtain ⟨e1, l1⟩ := t1.2 p p2 h1 hm
    obtain ⟨e2, l2⟩ := t2.2 p2 p3 hm h3
    exact ⟨e2.trans e1, le_trans l1 l2⟩

theorem tracked_set_other (m : RunMap) {pid k : String} (v : Run)
    (h : k ≠ pid) : registryTracked m (mapSet m k v) pid := by
  refine ⟨fun hn => ?_, fun p p2 h1 h2 => ?_⟩
  · rw [mapGet_set_ne m v (Ne.symm h)]
    exact hn
  · rw [mapGet_set_ne m v (Ne.symm h), h1] at h2
    injection h2 with h3
    subst h3
    exact ⟨rfl, le_refl _⟩

theorem tracked_set_preserve {m : RunMap} {pid : String} {p : Run} (v : Run)
    (hp : mapGet m pid = some p)
    (hexec : v.base.execution_order = p.base.execution_order)
    (hceo : p.base.child_execution_order ≤ v.base.child_execution_order) :
    registryTracked m (mapSet m pid v) pid := by
  refine ⟨fun hn => ?_, fun q q2 h1 h2 => ?_⟩
  · rw [hp] at hn
    cases hn
  · rw [mapGet_set_self] at h2
    injection h2 with h3
    subst h3
    rw [hp] at h1
    injection h1 with h4
    subst h4
    exact ⟨hexec, hceo⟩

theorem tracked_erase (m : RunMap) (pid k : String) :
    registryTracked m (mapErase m k) pid := by
  by_cases h : pid = k
  · subst h
    refine ⟨fun _ => mapGet_erase_self _ _, fun p p2 h1 h2 => ?_⟩
    rw [mapGet_erase_self] at h2
    cases h2
  · refine ⟨fun hn => ?_, fun p p2 h1 h2 => ?_⟩
    · rw [mapGet_erase_ne m h]
      exact hn
    · rw [mapGet_erase_ne m h, h1] at h2
      injection h2 with h3
      subst h3
      exact ⟨rfl, le_refl _⟩

theorem startTrace_tracked (st : TracerState) (run : Run) (pid : String)
    (hne : run.base.uuid ≠ pid) :
    registryTracked st.runMap (startTrace st run).2.runMap pid := by
  unfold startTrace
  split
  next ppid hpar =>
    split
    next parentRun hp =>
      split
      next hk =>
        have tmid : registryTracked st.runMap
            (mapSet st.runMap ppid (addChildRun parentRun run)) pid := by
          by_cases hpp : ppid = pid
          · subst hpp
            exact tracked_set_preserve _ hp (by rw [base_addChildRun])
              (by rw [base_addChildRun])
          · exact tracked_set_other _ _ hpp
        exact tracked_trans tmid (tracked_set_other _ _ hne)
      next hk => exact tracked_refl _ _
    next hp => exact tracked_refl _ _
  next hpar => exact tracked_set_other _ _ hne

theorem endTrace_tracked (persist : Run → Except TracerError Unit)
    (st : TracerState) (run : Run) (pid : String) :
    registryTracked st.runMap (endTrace persist st run).2.runMap pid := by
  unfold endTrace
  split
  next hpar =>
    split
    next e hper => exact tracked_refl _ _
    next u hper => exact tracked_erase _ _ _
  next ppid hpar =>
    split
    next hp => exact tracked_refl _ _
    next parentRun hp =>
      have tmid : registryTracked st.runMap
          (mapSet st.runMap ppid
            (parentRun.setChildExecutionOrder
              (max parentRun.base.child_execution_order
                run.base.child_execution_order))) pid := by
        by_cases hpp : ppid = pid
        · subst hpp
          exact tracked_set_preserve _ hp
            (by rw [base_setChildExecutionOrder])
            (by rw [base_setChildExecutionOrder]; exact le_max_left _ _)
        · exact tracked_set_other _ _ hpp
      exact tracked_trans tmid (tracked_erase _ _ _)

theorem handleLLMEnd_tracked (cfg : Config) (st : TracerState)
    (output runId : String) (now : Nat) (pid : String) :
    registryTracked st.runMap
      (handleLLMEnd cfg st output runId now).2.runMap pid := by
  unfold handleLLMEnd
  split
  next b prompts resp hr =>
    have t1 : registryTracked st.runMap
        (mapSet st.runMap runId
          (Run.llm { b with end_time := now } prompts (some output))) pid := by
      by_cases hq : runId = pid
      · subst hq
        exact tracked_set_preserve _ hr rfl (le_refl _)
      · exact tracked_set_other _ _ hq
    dsimp only
    split
    next e hhook => exact t1
    next u hhook =>
      exact tracked_trans t1 (endTrace_tracked cfg.persist
        { session := st.session
          runMap := mapSet st.runMap runId (Run.llm { b with end_time := now } prompts (some output)) }
        (Run.llm { b with end_time := now } prompts (some output)) pid)
  next hr => exact tracked_refl _ _
  next hr => exact tracked_refl _ _

theorem handleLLMError_tracked (cfg : Config) (st : TracerState)
    (message runId : String) (now : Nat) (pid : String) :
    registryTracked st.runMap
      (handleLLMError cfg st message runId now).2.runMap pid := by
  unfold handleLLMError
  split
  next b prompts resp hr =>
    have t1 : registryTracked st.runMap
        (mapSet st.runMap runId
          (Run.llm { b with end_time := now, error := some message }
            prompts resp)) pid := by
      by_cases hq : runId = pid
      · subst hq
        exact tracked_set_preserve _ hr rfl (le_refl _)
      · exact tracked_set_other _ _ hq
    dsimp only
    split
    next e hhook => exact t1
    next u hhook =>
      exact tracked_trans t1 (endTrace_tracked cfg.persist
        { session := st.session
          runMap := mapSet st.runMap runId (Run.llm { b with end_time := now, error := some message } prompts resp) }
        (Run.llm { b with end_time := now, error := some message } prompts resp) pid)
  next hr => exact tracked_refl _ _
  next hr => exact tracked_refl _ _

theorem handleChainEnd_tracked (cfg : Config) (st : TracerState)
    (outputs runId : String) (now : Nat) (pid : String) :
    registryTracked st.runMap
      (handleChainEnd cfg st outputs runId now).2.runMap pid := by
  unfold handleChainEnd
  split
  next b i o cl cc ct hr =>
    have t1 : registryTracked st.runMap
        (mapSet st.runMap runId
          (Run.chain { b with end_time := now } i (some outputs) cl cc ct))
        pid := by
      by_cases hq : runId = pid
      · subst hq
        exact tracked_set_preserve _ hr rfl (le_refl _)
      · exact tracked_set_other _ _ hq
    dsimp only
    split
    next e hhook => exact t1
    next u hhook =>
      exact tracked_trans t1 (endTrace_tracked cfg.persist
        { session := st.session
          runMap := mapSet st.runMap runId (Run.chain { b with end_time := now } i (some outputs) cl cc ct) }
        (Run.chain { b with end_time := now } i (some outputs) cl cc ct) pid)
  next hr => exact tracked_refl _ _
  next hr => exact tracked_refl _ _

theorem handleChainError_tracked (cfg : Config) (st : TracerState)
    (message runId : String) (now : Nat) (pid : String) :
    registryTracked st.runMap
      (handleChainError cfg st message runId now).2.runMap pid := by
  unfold handleChainError
  split
  next b i o cl cc ct hr =>
    have t1 : registryTracked st.runMap
        (mapSet st.runMap runId
          (Run.chain { b with end_time := now, error := some message }
            i o cl cc ct)) pid := by
      by_cases hq : runId = pid
      · subst hq
        exact tracked_set_preserve _ hr rfl (le_refl _)
      · exact tracked_set_other _ _ hq
    dsimp only
    split
    next e hhook => exact t1
    next u hhook =>
      exact tracked_trans t1 (endTrace_tracked cfg.persist
        { session := st.session
          runMap := mapSet st.runMap runId (Run.chain { b with end_time := now, error := some message } i o cl cc ct) }
        (Run.chain { b with end_time := now, error := some message } i o cl cc ct) pid)
  next hr => exact tracked_refl _ _
  next hr => exact tracked_refl _ _

theorem handleToolEnd_tracked (cfg : Config) (st : TracerState)
    (output runId : String) (now : Nat) (pid : String) :
    registryTracked st.runMap
      (handleToolEnd cfg st output runId now).2.runMap pid := by
  unfold handleToolEnd
  split
  next b ti o a cl cc ct hr =>
    have t1 : registryTracked st.runMap
        (mapSet st.runMap runId
          (Run.tool { b with end_time := now } ti (some output) a cl cc ct))
        pid := by
      by_cases hq : runId = pid
      · subst hq
        exact tracked_set_preserve _ hr rfl (le_refl _)
      · exact tracked_set_other _ _ hq
    dsimp only
    split
    next e hhook => exact t1
    next u hhook =>
      exact tracked_trans t1 (endTrace_tracked cfg.persist
        { session := st.session
          runMap := mapSet st.runMap runId (Run.tool { b with end_time := now } ti (some output) a cl cc ct) }
        (Run.tool { b with end_time := now } ti (some output) a cl cc ct) pid)
  next hr => exact tracked_refl _ _
  next hr => exact tracked_refl _ _

theorem handleToolError_tracked (cfg : Config) (st : TracerState)
    (message runId : String) (now : Nat) (pid : String) :
    registryTracked st.runMap
      (handleToolError cfg st message runId now).2.runMap pid := by
  unfold handleToolError
  split
  next b ti o a cl cc ct hr =>
    have t1 : registryTracked st.runMap
        (mapSet st.runMap runId
          (Run.tool { b with end_time := now, error := some message }
            ti o a cl cc ct)) pid := by
      by_cases hq : runId = pid
      · subst hq
        exact tracked_set_preserve _ hr rfl (le_refl _)
      · exact tracked_set_other _ _ hq
    dsimp only
    split
    next e hhook => exact t1
    next u hhook =>
      exact tracked_trans t1 (endTrace_tracked cfg.persist
        { session := st.session
          runMap := mapSet st.runMap runId (Run.tool { b with end_time := now, error := some message } ti o a cl cc ct) }
        (Run.tool { b with end_time := now, error := some message } ti o a cl cc ct) pid)
  next hr => exact tracked_refl _ _
  next hr => exact tracked_refl _ _

theorem handleLLMStart_tracked (cfg : Config) (st : TracerState)
    (name : String) (prompts : List String) (runId : String)
    (parentRunId : Option String) (now : Nat) (pid : String)
    (hne : runId ≠ pid) :
    registryTracked st.runMap
      (handleLLMStart cfg st name prompts runId parentRunId now).2.runMap
      pid := by
  unfold handleLLMStart
  dsimp only
  split
  next e hres => exact tracked_refl _ _
  next eo hres =>
    have t := startTrace_tracked
      { st with session := some (st.session.getD cfg.defaultSession) }
      (mkLLMRun cfg st name prompts runId parentRunId now eo) pid hne
    split
    next e st1 hst =>
      rw [hst] at t
      exact t
    next u st1 hst =>
      rw [hst] at t
      split
      next e hhook => exact t
      next u2 hhook => exact t

theorem handleChainStart_tracked (cfg : Config) (st : TracerState)
    (name inputs : String) (runId : String) (parentRunId : Option String)
    (now : Nat) (pid : String) (hne : runId ≠ pid) :
    registryTracked st.runMap
      (handleChainStart cfg st name inputs runId parentRunId now).2.runMap
      pid := by
  unfold handleChainStart
  dsimp only
  split
  next e hres => exact tracked_refl _ _
  next eo hres =>
    have t := startTrace_tracked
      { st with session := some (st.session.getD cfg.defaultSession) }
      (mkChainRun cfg st name inputs runId parentRunId now eo) pid hne
    split
    next e st1 hst =>
      rw [hst] at t
      exact t
    next u st1 hst =>
      rw [hst] at t
      split
      next e hhook => exact t
      next u2 hhook => exact t

theorem handleToolStart_tracked (cfg : Config) (st : TracerState)
    (name input : String) (runId : String) (parentRunId : Option String)
    (now : Nat) (pid : String) (hne : runId ≠ pid) :
    registryTracked st.runMap
      (handleToolStart cfg st name input runId parentRunId now).2.runMap
      pid := by
  unfold handleToolStart
  dsimp only
  split
  next e hres => exact tracked_refl _ _
  next eo hres =>
    have t := startTrace_tracked
      { st with session := some (st.session.getD cfg.defaultSession) }
      (mkToolRun cfg st name input runId parentRunId now eo) pid hne
    split
    next e st1 hst =>
      rw [hst] at t
      exact t
    next u st1 hst =>
      rw [hst] at t
      split
      next e hhook => exact t
      next u2 hhook => exact t

/-- Over any single lifecycle call that does not Start a run with id
`pid`, the registry entry for `pid` evolves monotonically. -/
theorem step_tracked (cfg : Config) (st : TracerState) (ev : Event)
    (pid : String) (hne : ev.isStart = true → ev.runId ≠ pid) :
    registryTracked st.runMap (step cfg st ev).2.runMap pid := by
  cases ev with
  | llmStart name prompts runId parentRunId now =>
    exact handleLLMStart_tracked cfg st name prompts runId parentRunId now pid
      (hne rfl)
  | llmEnd output runId now => exact handleLLMEnd_tracked cfg st output runId now pid
  | llmError message runId now =>
    exact handleLLMError_tracked cfg st message runId now pid
  | chainStart name inputs runId parentRunId now =>
    exact handleChainStart_tracked cfg st name inputs runId parentRunId now pid
      (hne rfl)
  | chainEnd outputs runId now =>
    exact handleChainEnd_tracked cfg st outputs runId now pid
  | chainError message runId now =>
    exact handleChainError_tracked cfg st message runId now pid
  | toolStart name input runId parentRunId now =>
    exact handleToolStart_tracked cfg st name input runId parentRunId now pid
      (hne rfl)
  | toolEnd output runId now =>
    exact handleToolEnd_tracked cfg st output runId now pid
  | toolError message runId now =>
    exact handleToolError_tracked cfg st message runId now pid

/-- Over any sequence of lifecycle calls none of which Starts a run with
id `pid`, the registry entry for `pid` evolves monotonically. -/
theorem runEvents_tracked (cfg : Config) (st : TracerState)
    (es : List Event) (pid : String)
    (hne : ∀ e ∈ es, e.isStart = true → e.runId ≠ pid) :
    registryTracked st.runMap (runEvents cfg st es).runMap pid := by
  induction es generalizing st with
  | nil => exact tracked_refl _ _
  | cons e t ih =>
    exact tracked_trans
      (step_tracked cfg st e pid (hne e (List.mem_cons_self e t)))
      (ih (step cfg st e).2 (fun x hx => hne x (List.mem_cons_of_mem e hx)))

theorem mapInv_set {m : RunMap} {k : String} {v : Run} (h : mapInv m)
    (hv : v.base.execution_order ≤ v.base.child_execution_order) :
    mapInv (mapSet m k v) := by
  intro id r hr
  by_cases hid : id = k
  · subst hid
    rw [mapGet_set_self] at hr
    injection hr with h3
    subst h3
    exact hv
  · rw [mapGet_set_ne m v hid] at hr
    exact h id r hr

theorem mapInv_erase {m : RunMap} {k : String} (h : mapInv m) :
    mapInv (mapErase m k) := by
  intro id r hr
  by_cases hid : id = k
  · subst hid
    rw [mapGet_erase_self] at hr
    cases hr
  · rw [mapGet_erase_ne m hid] at hr
    exact h id r hr

theorem startTrace_inv (st : TracerState) (run : Run) (h : mapInv st.runMap)
    (hrun : run.base.execution_order ≤ run.base.child_execution_order) :
    mapInv (startTrace st run).2.runMap := by
  unfold startTrace
  split
  next ppid hpar =>
    split
    next parentRun hp =>
      split
      next hk =>
        refine mapInv_set (mapInv_set h ?_) hrun
        rw [base_addChildRun]
        exact h _ _ hp
      next hk => exact h
    next hp => exact h
  next hpar => exact mapInv_set h hrun

theorem endTrace_inv (persist : Run → Except TracerError Unit)
    (st : TracerState) (run : Run) (h : mapInv st.runMap) :
    mapInv (endTrace persist st run).2.runMap := by
  unfold endTrace
  split
  next hpar =>
    split
    next e hper => exact h
    next u hper => exact mapInv_erase h
  next ppid hpar =>
    split
    next hp => exact h
    next parentRun hp =>
      refine mapInv_erase (mapInv_set h ?_)
      rw [base_setChildExecutionOrder]
      exact le_trans (h _ _ hp) (le_max_left _ _)

theorem handleLLMEnd_inv (cfg : Config) (st : TracerState)
    (output runId : String) (now : Nat) (h : mapInv st.runMap) :
    mapInv (handleLLMEnd cfg st output runId now).2.runMap := by
  unfold handleLLMEnd
  split
  next b prompts resp hr =>
    have h1 : mapInv (mapSet st.runMap runId
        (Run.llm { b with end_time := now } prompts (some output))) :=
      mapInv_set h (h runId (Run.llm b prompts resp) hr)
    dsimp only
    split
    next e hhook => exact h1
    next u hhook =>
      exact endTrace_inv cfg.persist
        { session := st.session
          runMap := mapSet st.runMap runId
            (Run.llm { b with end_time := now } prompts (some output)) }
        (Run.llm { b with end_time := now } prompts (some output)) h1
  next hr => exact h
  next hr => exact h

theorem handleLLMError_inv (cfg : Config) (st : TracerState)
    (message runId : String) (now : Nat) (h : mapInv st.runMap) :
    mapInv (handleLLMError cfg st message runId now).2.runMap := by
  unfold handleLLMError
  split
  next b prompts resp hr =>
    have h1 : mapInv (mapSet st.runMap runId
        (Run.llm { b with end_time := now, error := some message }
          prompts resp)) :=
      mapInv_set h (h runId (Run.llm b prompts resp) hr)
    dsimp only
    split
    next e hhook => exact h1
    next u hhook =>
      exact endTrace_inv cfg.persist
        { session := st.session
          runMap := mapSet st.runMap runId
            (Run.llm { b with end_time := now, error := some message }
              prompts resp) }
        (Run.llm { b with end_time := now, error := some message }
          prompts resp) h1
  next hr => exact h
  next hr => exact h

theorem handleChainEnd_inv (cfg : Config) (st : TracerState)
    (outputs runId : String) (now : Nat) (h : mapInv st.runMap) :
    mapInv (handleChainEnd cfg st outputs runId now).2.runMap := by
  unfold handleChainEnd
  split
  next b i o cl cc ct hr =>
    have h1 : mapInv (mapSet st.runMap runId
        (Run.chain { b with end_time := now } i (some outputs) cl cc ct)) :=
      mapInv_set h (h runId (Run.chain b i o cl cc ct) hr)
    dsimp only
    split
    next e hhook => exact h1
    next u hhook =>
      exact endTrace_inv cfg.persist
        { session := st.session
          runMap := mapSet st.runMap runId
            (Run.chain { b with end_time := now } i (some outputs) cl cc ct) }
        (Run.chain { b with end_time := now } i (some outputs) cl cc ct) h1
  next hr => exact h
  next hr => exact h

theorem handleChainError_inv (cfg : Config) (st : TracerState)
    (message runId : String) (now : Nat) (h : mapInv st.runMap) :
    mapInv (handleChainError cfg st message runId now).2.runMap := by
  unfold handleChainError
  split
  next b i o cl cc ct hr =>
    have h1 : mapInv (mapSet st.runMap runId
        (Run.chain { b with end_time := now, error := some message }
          i o cl cc ct)) :=
      mapInv_set h (h runId (Run.chain b i o cl cc ct) hr)
    dsimp only
    split
    next e hhook => exact h1
    next u hhook =>
      exact endTrace_inv cfg.persist
        { session := st.session
          runMap := mapSet st.runMap runId
            (Run.chain { b with end_time := now, error := some message }
              i o cl cc ct) }
        (Run.chain { b with end_time := now, error := some message }
          i o cl cc ct) h1
  next hr => exact h
  next hr => exact h

theorem handleToolEnd_inv (cfg : Config) (st : TracerState)
    (output runId : String) (now : Nat) (h : mapInv st.runMap) :
    mapInv (handleToolEnd cfg st output runId now).2.runMap := by
  unfold handleToolEnd
  split
  next b ti o a cl cc ct hr =>
    have h1 : mapInv (mapSet st.runMap runId
        (Run.tool { b with end_time := now } ti (some output) a cl cc ct)) :=
      mapInv_set h (h runId (Run.tool b ti o a cl cc ct) hr)
    dsimp only
    split
    next e hhook => exact h1
    next u hhook =>
      exact endTrace_inv cfg.persist
        { session := st.session
          runMap := mapSet st.runMap runId
            (Run.tool { b with end_time := now } ti (some output) a cl cc ct) }
        (Run.tool { b with end_time := now } ti (some output) a cl cc ct) h1
  next hr => exact h
  next hr => exact h

theorem handleToolError_inv (cfg : Config) (st : TracerState)
    (message runId : String) (now : Nat) (h : mapInv st.runMap) :
    mapInv (handleToolError cfg st message runId now).2.runMap := by
  unfold handleToolError
  split
  next b ti o a cl cc ct hr =>
    have h1 : mapInv (mapSet st.runMap runId
        (Run.tool { b with end_time := now, error := some message }
          ti o a cl cc ct)) :=
      mapInv_set h (h runId (Run.tool b ti o a cl cc ct) hr)
    dsimp only
    split
    next e hhook => exact h1
    next u hhook =>
      exact endTrace_inv cfg.persist
        { session := st.session
          runMap := mapSet st.runMap runId
            (Run.tool { b with end_time := now, error := some message }
              ti o a cl cc ct) }
        (Run.tool { b with end_time := now, error := some message }
          ti o a cl cc ct) h1
  next hr => exact h
  next hr => exact h

theorem handleLLMStart_inv (cfg : Config) (st : TracerState) (name : String)
    (prompts : List String) (runId : String) (parentRunId : Option String)
    (now : Nat) (h : mapInv st.runMap) :
    mapInv (handleLLMStart cfg st name prompts runId parentRunId now).2.runMap := by
  unfold handleLLMStart
  dsimp only
  split
  next e hres => exact h
  next eo hres =>
    have t := startTrace_inv
      { st with session := some (st.session.getD cfg.defaultSession) }
      (mkLLMRun cfg st name prompts runId parentRunId now eo) h (le_refl _)
    split
    next e st1 hst =>
      rw [hst] at t
      exact t
    next u st1 hst =>
      rw [hst] at t
      split
      next e hhook => exact t
      next u2 hhook => exact t

theorem handleChainStart_inv (cfg : Config) (st : TracerState)
    (name inputs : String) (runId : String) (parentRunId : Option String)
    (now : Nat) (h : mapInv st.runMap) :
    mapInv (handleChainStart cfg st name inputs runId parentRunId now).2.runMap := by
  unfold handleChainStart
  dsimp only
  split
  next e hres => exact h
  next eo hres =>
    have t := startTrace_inv
      { st with session := some (st.session.getD cfg.defaultSession) }
      (mkChainRun cfg st name inputs runId parentRunId now eo) h (le_refl _)
    split
    next e st1 hst =>
      rw [hst] at t
      exact t
    next u st1 hst =>
      rw [hst] at t
      split
      next e hhook => exact t
      next u2 hhook => exact t

theorem handleToolStart_inv (cfg : Config) (st : TracerState)
    (name input : String) (runId : String) (parentRunId : Option String)
    (now : Nat) (h : mapInv st.runMap) :
    mapInv (handleToolStart cfg st name input runId parentRunId now).2.runMap := by
  unfold handleToolStart
  dsimp only
  split
  next e hres => exact h
  next eo hres =>
    have t := startTrace_inv
      { st with session := some (st.session.getD cfg.defaultSession) }
      (mkToolRun cfg st name input runId parentRunId now eo) h (le_refl _)
    split
    next e st1 hst =>
      rw [hst] at t
      exact t
    next u st1 hst =>
      rw [hst] at t
      split
      next e hhook => exact t
      next u2 hhook => exact t

theorem step_inv (cfg : Config) (st : TracerState) (ev : Event)
    (h : mapInv st.runMap) : mapInv (step cfg st ev).2.runMap := by
  cases ev with
  | llmStart name prompts runId parentRunId now =>
    exact handleLLMStart_inv cfg st name prompts runId parentRunId now h
  | llmEnd output runId now => exact handleLLMEnd_inv cfg st output runId now h
  | llmError message runId now =>
    exact handleLLMError_inv cfg st message runId now h
  | chainStart name inputs runId parentRunId now =>
    exact handleChainStart_inv cfg st name inputs runId parentRunId now h
  | chainEnd outputs runId now =>
    exact handleChainEnd_inv cfg st outputs runId now h
  | chainError message runId now =>
    exact handleChainError_inv cfg st message runId now h
  | toolStart name input runId parentRunId now =>
    exact handleToolStart_inv cfg st name input runId parentRunId now h
  | toolEnd output runId now => exact handleToolEnd_inv cfg st output runId now h
  | toolError message runId now =>
    exact handleToolError_inv cfg st message runId now h

theorem runEvents_inv (cfg : Config) (st : TracerState) (es : List Event)
    (h : mapInv st.runMap) : mapInv (runEvents cfg st es).runMap := by
  induction es generalizing st with
  | nil => exact h
  | cons e t ih => exact ih (step cfg st e).2 (step_inv cfg st e h)

/-- Every state reachable from a fresh tracer satisfies the order
invariant: each open run's child-execution-order is at least its
execution order. -/
theorem stateAfter_inv (cfg : Config) (es : List Event) :
    mapInv (stateAfter cfg es).runMap := by
  rw [stateAfter]
  refine runEvents_inv cfg initialState es ?_
  intro id r hr
  simp [mapGet, initialState] at hr

/-- When an End event on a child run completes successfully, the parent's
registry entry (if still present — it is deleted only when parent and
child share an id) has child-execution-order at least the child's. -/
theorem handleLLMEnd_parent_ceo (cfg : Config) (st : TracerState)
    (output aId : String) (now : Nat) (pid : String) (b : RunBase)
    (prompts : List String) (resp : Option String)
    (ha : mapGet st.runMap aId = some (Run.llm b prompts resp))
    (hpar : b.parent_uuid = some pid)
    (hok : (handleLLMEnd cfg st output aId now).1 = .ok ()) :
    ∀ p2, mapGet (handleLLMEnd cfg st output aId now).2.runMap pid = some p2 →
      b.child_execution_order ≤ p2.base.child_execution_order := by
  unfold handleLLMEnd at hok ⊢
  simp only [ha] at hok ⊢
  cases hhook : cfg.onLLMEnd
      (Run.llm { b with end_time := now } prompts (some output)) with
  | error e =>
    simp only [hhook] at hok
    simp at hok
  | ok u =>
    simp only [hhook] at hok ⊢
    unfold endTrace at hok ⊢
    simp only [show (Run.llm { b with end_time := now } prompts
      (some output)).base.parent_uuid = some pid from hpar] at hok ⊢
    cases hp : mapGet
        (mapSet st.runMap aId
          (Run.llm { b with end_time := now } prompts (some output)))
        pid with
    | none =>
      simp only [hp] at hok
      simp at hok
    | some parentRun =>
      intro p2 hp2
      simp only [Run.base] at hp2
      by_cases hpe : pid = b.uuid
      · rw [hpe, mapGet_erase_self] at hp2
        cases hp2
      · rw [mapGet_erase_ne _ hpe, mapGet_set_self] at hp2
        injection hp2 with h3
        subst h3
        rw [base_setChildExecutionOrder]
        exact le_max_right _ _

/-- A successful Start under parent `pid` finds the parent open and gives
the new run execution order equal to the parent's child-execution-order
plus one. -/
theorem handleLLMStart_child_exec (cfg : Config) (st : TracerState)
    (name : String) (prompts : List String) (bId pid : String) (now : Nat)
    (hok : (handleLLMStart cfg st name prompts bId (some pid) now).1 =
      .ok ()) :
    ∃ par, mapGet st.runMap pid = some par ∧
      ∀ b2, mapGet
          (handleLLMStart cfg st name prompts bId (some pid) now).2.runMap
          bId = some b2 →
        b2.base.execution_order = par.base.child_execution_order + 1 := by
  cases hp : mapGet st.runMap pid with
  | none =>
    exfalso
    unfold handleLLMStart at hok
    simp only [getExecutionOrder, hp] at hok
    simp at hok
  | some par =>
    have hres : getExecutionOrder st.runMap (some pid) =
        .ok (par.base.child_execution_order + 1) := by
      simp [getExecutionOrder, hp]
    have hmain := handleLLMStart_ok cfg st name prompts bId (some pid) now
      hres hok
    refine ⟨par, rfl, ?_⟩
    intro b2 hb2
    rw [hmain] at hb2
    injection hb2 with h3
    rw [← h3]
    rfl

/-- C3 counterexample: start chain "R" (root), then start "A" under "R",
then start "B" under "R" while "A" is still open.  "B"'s Start comes later
in the call sequence than "A"'s, yet both siblings receive execution order
2 — the later-started sibling's order is not strictly greater. -/
theorem sibling_strict_order_counterexample :
    (mapGet (stateAfter cfgTriv
      [.chainStart "chain" "" "R" none 0,
       .llmStart "llm" [] "A" (some "R") 1,
       .llmStart "llm" [] "B" (some "R") 2]).runMap "B").map
      (fun r => r.base.execution_order) =
    (mapGet (stateAfter cfgTriv
      [.chainStart "chain" "" "R" none 0,
       .llmStart "llm" [] "A" (some "R") 1,
       .llmStart "llm" [] "B" (some "R") 2]).runMap "A").map
      (fun r => r.base.execution_order) ∧
    (mapGet (stateAfter cfgTriv
      [.chainStart "chain" "" "R" none 0,
       .llmStart "llm" [] "A" (some "R") 1,
       .llmStart "llm" [] "B" (some "R") 2]).runMap "A").map
      (fun r => r.base.execution_order) = some 2 := by
  exact ⟨rfl, rfl⟩

/-- As `handleLLMEnd_parent_ceo`, for `handleLLMError`. -/
theorem handleLLMError_parent_ceo (cfg : Config) (st : TracerState)
    (message aId : String) (now : Nat) (pid : String) (b : RunBase)
    (prompts : List String) (resp : Option String)
    (ha : mapGet st.runMap aId = some (Run.llm b prompts resp))
    (hpar : b.parent_uuid = some pid)
    (hok : (handleLLMError cfg st message aId now).1 = .ok ()) :
    ∀ p2, mapGet (handleLLMError cfg st message aId now).2.runMap pid =
        some p2 →
      b.child_execution_order ≤ p2.base.child_execution_order := by
  unfold handleLLMError at hok ⊢
  simp only [ha] at hok ⊢
  cases hhook : cfg.onLLMError
      (Run.llm { b with end_time := now, error := some message } prompts resp) with
  | error e =>
    simp only [hhook] at hok
    simp at hok
  | ok u =>
    simp only [hhook] at hok ⊢
    unfold endTrace at hok ⊢
    simp only [show (Run.llm { b with end_time := now, error := some message } prompts resp).base.parent_uuid =
      some pid from hpar] at hok ⊢
    cases hp : mapGet
        (mapSet st.runMap aId
          (Run.llm { b with end_time := now, error := some message } prompts resp))
        pid with
    | none =>
      simp only [hp] at hok
      simp at hok
    | some parentRun =>
      intro p2 hp2
      simp only [Run.base] at hp2
      by_cases hpe : pid = b.uuid
      · rw [hpe, mapGet_erase_self] at hp2
        cases hp2
      · rw [mapGet_erase_ne _ hpe, mapGet_set_self] at hp2
        injection hp2 with h3
        subst h3
        rw [base_setChildExecutionOrder]
        exact le_max_right _ _

/-- As `handleLLMEnd_parent_ceo`, for `handleChainEnd`. -/
theorem handleChainEnd_parent_ceo (cfg : Config) (st : TracerState)
    (outputs aId : String) (now : Nat) (pid : String) (b : RunBase)
    (i : String) (o : Option String) (cl cc ct : List Run)
    (ha : mapGet st.runMap aId = some (Run.chain b i o cl cc ct))
    (hpar : b.parent_uuid = some pid)
    (hok : (handleChainEnd cfg st outputs aId now).1 = .ok ()) :
    ∀ p2, mapGet (handleChainEnd cfg st outputs aId now).2.runMap pid =
        some p2 →
      b.child_execution_order ≤ p2.base.child_execution_order := by
  unfold handleChainEnd at hok ⊢
  simp only [ha] at hok ⊢
  cases hhook : cfg.onChainEnd
      (Run.chain { b with end_time := now } i (some outputs) cl cc ct) with
  | error e =>
    simp only [hhook] at hok
    simp at hok
  | ok u =>
    simp only [hhook] at hok ⊢
    unfold endTrace at hok ⊢
    simp only [show (Run.chain { b with end_time := now } i (some outputs) cl cc ct).base.parent_uuid =
      some pid from hpar] at hok ⊢
    cases hp : mapGet
        (mapSet st.runMap aId
          (Run.chain { b with end_time := now } i (some outputs) cl cc ct))
        pid with
    | none =>
      simp only [hp] at hok
      simp at hok
    | some parentRun =>
      intro p2 hp2
      simp only [Run.base] at hp2
      by_cases hpe : pid = b.uuid
      · rw [hpe, mapGet_erase_self] at hp2
        cases hp2
      · rw [mapGet_erase_ne _ hpe, mapGet_set_self] at hp2
        injection hp2 with h3
        subst h3
        rw [base_setChildExecutionOrder]
        exact le_max_right _ _

/-- As `handleLLMEnd_parent_ceo`, for `handleChainError`. -/
theorem handleChainError_parent_ceo (cfg : Config) (st : TracerState)
    (message aId : String) (now : Nat) (pid : String) (b : RunBase)
    (i : String) (o : Option String) (cl cc ct : List Run)
    (ha : mapGet st.runMap aId = some (Run.chain b i o cl cc ct))
    (hpar : b.parent_uuid = some pid)
    (hok : (handleChainError cfg st message aId now).1 = .ok ()) :
    ∀ p2, mapGet (handleChainError cfg st message aId now).2.runMap pid =
        some p2 →
      b.child_execution_order ≤ p2.base.child_execution_order := by
  unfold handleChainError at hok ⊢
  simp only [ha] at hok ⊢
  cases hhook : cfg.onChainError
      (Run.chain { b with end_time := now, error := some message } i o cl cc ct) with
  | error e =>
    simp only [hhook] at hok
    simp at hok
  | ok u =>
    simp only [hhook] at hok ⊢
    unfold endTrace at hok ⊢
    simp only [show (Run.chain { b with end_time := now, error := some message } i o cl cc ct).base.parent_uuid =
      some pid from hpar] at hok ⊢
    cases hp : mapGet
        (mapSet st.runMap aId
          (Run.chain { b with end_time := now, error := some message } i o cl cc ct))
        pid with
    | none =>
      simp only [hp] at hok
      simp at hok
    | some parentRun =>
      intro p2 hp2
      simp only [Run.base] at hp2
      by_cases hpe : pid = b.uuid
      · rw [hpe, mapGet_erase_self] at hp2
        cases hp2
      · rw [mapGet_erase_ne _ hpe, mapGet_set_self] at hp2
        injection hp2 with h3
        subst h3
        rw [base_setChildExecutionOrder]
        exact le_max_right _ _

/-- As `handleLLMEnd_parent_ceo`, for `handleToolEnd`. -/
theorem handleToolEnd_parent_ceo (cfg : Config) (st : TracerState)
    (output aId : String) (now : Nat) (pid : String) (b : RunBase)
    (ti : String) (o : Option String) (act : String) (cl cc ct : List Run)
    (ha : mapGet st.runMap aId = some (Run.tool b ti o act cl cc ct))
    (hpar : b.parent_uuid = some pid)
    (hok : (handleToolEnd cfg st output aId now).1 = .ok ()) :
    ∀ p2, mapGet (handleToolEnd cfg st output aId now).2.runMap pid =
        some p2 →
      b.child_execution_order ≤ p2.base.child_execution_order := by
  unfold handleToolEnd at hok ⊢
  simp only [ha] at hok ⊢
  cases hhook : cfg.onToolEnd
      (Run.tool { b with end_time := now } ti (some output) act cl cc ct) with
  | error e =>
    simp only [hhook] at hok
    simp at hok
  | ok u =>
    simp only [hhook] at hok ⊢
    unfold endTrace at hok ⊢
    simp only [show (Run.tool { b with end_time := now } ti (some output) act cl cc ct).base.parent_uuid =
      some pid from hpar] at hok ⊢
    cases hp : mapGet
        (mapSet st.runMap aId
          (Run.tool { b with end_time := now } ti (some output) act cl cc ct))
        pid with
    | none =>
      simp only [hp] at hok
      simp at hok
    | some parentRun =>
      intro p2 hp2
      simp only [Run.base] at hp2
      by_cases hpe : pid = b.uuid
      · rw [hpe, mapGet_erase_self] at hp2
        cases hp2
      · rw [mapGet_erase_ne _ hpe, mapGet_set_self] at hp2
        injection hp2 with h3
        subst h3
        rw [base_setChildExecutionOrder]
        exact le_max_right _ _

/-- As `handleLLMEnd_parent_ceo`, for `handleToolError`. -/
theorem handleToolError_parent_ceo (cfg : Config) (st : TracerState)
    (message aId : String) (now : Nat) (pid : String) (b : RunBase)
    (ti : String) (o : Option String) (act : String) (cl cc ct : List Run)
    (ha : mapGet st.runMap aId = some (Run.tool b ti o act cl cc ct))
    (hpar : b.parent_uuid = some pid)
    (hok : (handleToolError cfg st message aId now).1 = .ok ()) :
    ∀ p2, mapGet (handleToolError cfg st message aId now).2.runMap pid =
        some p2 →
      b.child_execution_order ≤ p2.base.child_execution_order := by
  unfold handleToolError at hok ⊢
  simp only [ha] at hok ⊢
  cases hhook : cfg.onToolError
      (Run.tool { b with end_time := now, error := some message } ti o act cl cc ct) with
  | error e =>
    simp only [hhook] at hok
    simp at hok
  | ok u =>
    simp only [hhook] at hok ⊢
    unfold endTrace at hok ⊢
    simp only [show (Run.tool { b with end_time := now, error := some message } ti o act cl cc ct).base.parent_uuid =
      some pid from hpar] at hok ⊢
    cases hp : mapGet
        (mapSet st.runMap aId
          (Run.tool { b with end_time := now, error := some message } ti o act cl cc ct))
        pid with
    | none =>
      simp only [hp] at hok
      simp at hok
    | some parentRun =>
      intro p2 hp2
      simp only [Run.base] at hp2
      by_cases hpe : pid = b.uuid
      · rw [hpe, mapGet_erase_self] at hp2
        cases hp2
      · rw [mapGet_erase_ne _ hpe, mapGet_set_self] at hp2
        injection hp2 with h3
        subst h3
        rw [base_setChildExecutionOrder]
        exact le_max_right _ _

/-- As `handleLLMStart_child_exec`, for `handleChainStart`. -/
theorem handleChainStart_child_exec (cfg : Config) (st : TracerState)
    (name inputs : String) (bId pid : String) (now : Nat)
    (hok : (handleChainStart cfg st name inputs bId (some pid) now).1 =
      .ok ()) :
    ∃ par, mapGet st.runMap pid = some par ∧
      ∀ b2, mapGet
          (handleChainStart cfg st name inputs bId (some pid) now).2.runMap
          bId = some b2 →
        b2.base.execution_order = par.base.child_execution_order + 1 := by
  cases hp : mapGet st.runMap pid with
  | none =>
    exfalso
    unfold handleChainStart at hok
    simp only [getExecutionOrder, hp] at hok
    simp at hok
  | some par =>
    have hres : getExecutionOrder st.runMap (some pid) =
        .ok (par.base.child_execution_order + 1) := by
      simp [getExecutionOrder, hp]
    have hmain := handleChainStart_ok cfg st name inputs bId (some pid) now
      hres hok
    refine ⟨par, rfl, ?_⟩
    intro b2 hb2
    rw [hmain] at hb2
    injection hb2 with h3
    rw [← h3]
    rfl

/-- As `handleLLMStart_child_exec`, for `handleToolStart`. -/
theorem handleToolStart_child_exec (cfg : Config) (st : TracerState)
    (name input : String) (bId pid : String) (now : Nat)
    (hok : (handleToolStart cfg st name input bId (some pid) now).1 =
      .ok ()) :
    ∃ par, mapGet st.runMap pid = some par ∧
      ∀ b2, mapGet
          (handleToolStart cfg st name input bId (some pid) now).2.runMap
          bId = some b2 →
        b2.base.execution_order = par.base.child_execution_order + 1 := by
  cases hp : mapGet st.runMap pid with
  | none =>
    exfalso
    unfold handleToolStart at hok
    simp only [getExecutionOrder, hp] at hok
    simp at hok
  | some par =>
    have hres : getExecutionOrder st.runMap (some pid) =
        .ok (par.base.child_execution_order + 1) := by
      simp [getExecutionOrder, hp]
    have hmain := handleToolStart_ok cfg st name input bId (some pid) now
      hres hok
    refine ⟨par, rfl, ?_⟩
    intro b2 hb2
    rw [hmain] at hb2
    injection hb2 with h3
    rw [← h3]
    rfl

/-- When an End or Fail event of any kind on a child run completes
successfully, the parent's registry entry (if still present) has
child-execution-order at least the child's. -/
theorem step_close_parent_ceo (cfg : Config) (st : TracerState) (ev : Event)
    (pid : String) (a : Run) (hclose : ev.isClose = true)
    (ha : mapGet st.runMap ev.runId = some a)
    (hpar : a.base.parent_uuid = some pid)
    (hok : (step cfg st ev).1 = .ok ()) :
    ∀ p2, mapGet (step cfg st ev).2.runMap pid = some p2 →
      a.base.child_execution_order ≤ p2.base.child_execution_order := by
  cases ev with
  | llmStart name prompts runId parentRunId now => simp [Event.isClose] at hclose
  | chainStart name inputs runId parentRunId now =>
    simp [Event.isClose] at hclose
  | toolStart name input runId parentRunId now =>
    simp [Event.isClose] at hclose
  | llmEnd output runId now =>
    cases a with
    | llm b prompts resp =>
      exact handleLLMEnd_parent_ceo cfg st output runId now pid b prompts resp
        ha hpar hok
    | chain b i o cl cc ct =>
      exfalso
      simp only [Event.runId] at ha
      unfold step handleLLMEnd at hok
      simp only [ha] at hok
      simp at hok
    | tool b ti o act cl cc ct =>
      exfalso
      simp only [Event.runId] at ha
      unfold step handleLLMEnd at hok
      simp only [ha] at hok
      simp at hok
  | llmError message runId now =>
    cases a with
    | llm b prompts resp =>
      exact handleLLMError_parent_ceo cfg st message runId now pid b prompts
        resp ha hpar hok
    | chain b i o cl cc ct =>
      exfalso
      simp only [Event.runId] at ha
      unfold step handleLLMError at hok
      simp only [ha] at hok
      simp at hok
    | tool b ti o act cl cc ct =>
      exfalso
      simp only [Event.runId] at ha
      unfold step handleLLMError at hok
      simp only [ha] at hok
      simp at hok
  | chainEnd outputs runId now =>
    cases a with
    | chain b i o cl cc ct =>
      exact handleChainEnd_parent_ceo cfg st outputs runId now pid b i o
        cl cc ct ha hpar hok
    | llm b prompts resp =>
      exfalso
      simp only [Event.runId] at ha
      unfold step handleChainEnd at hok
      simp only [ha] at hok
      simp at hok
    | tool b ti o act cl cc ct =>
      exfalso
      simp only [Event.runId] at ha
      unfold step handleChainEnd at hok
      simp only [ha] at hok
      simp at hok
  | chainError message runId now =>
    cases a with
    | chain b i o cl cc ct =>
      exact handleChainError_parent_ceo cfg st message runId now pid b i o
        cl cc ct ha hpar hok
    | llm b prompts resp =>
      exfalso
      simp only [Event.runId] at ha
      unfold step handleChainError at hok
      simp only [ha] at hok
      simp at hok
    | tool b ti o act cl cc ct =>
      exfalso
      simp only [Event.runId] at ha
      unfold step handleChainError at hok
      simp only [ha] at hok
      simp at hok
  | toolEnd output runId now =>
    cases a with
    | tool b ti o act cl cc ct =>
      exact handleToolEnd_parent_ceo cfg st output runId now pid b ti o act
        cl cc ct ha hpar hok
    | llm b prompts resp =>
      exfalso
      simp only [Event.runId] at ha
      unfold step handleToolEnd at hok
      simp only [ha] at hok
      simp at hok
    | chain b i o cl cc ct =>
      exfalso
      simp only [Event.runId] at ha
      unfold step handleToolEnd at hok
      simp only [ha] at hok
      simp at hok
  | toolError message runId now =>
    cases a with
    | tool b ti o act cl cc ct =>
      exact handleToolError_parent_ceo cfg st message runId now pid b ti o act
        cl cc ct ha hpar hok
    | llm b prompts resp =>
      exfalso
      simp only [Event.runId] at ha
      unfold step handleToolError at hok
      simp only [ha] at hok
      simp at hok
    | chain b i o cl cc ct =>
      exfalso
      simp only [Event.runId] at ha
      unfold step handleToolError at hok
      simp only [ha] at hok
      simp at hok

/-- A successful Start event of any kind under parent `pid` finds the
parent open and assigns the new run execution order equal to the parent's
child-execution-order plus one. -/
theorem step_start_child_exec (cfg : Config) (st : TracerState) (ev : Event)
    (pid : String) (hpid : ev.parentId = some pid)
    (hok : (step cfg st ev).1 = .ok ()) :
    ∃ par, mapGet st.runMap pid = some par ∧
      ∀ b2, mapGet (step cfg st ev).2.runMap ev.runId = some b2 →
        b2.base.execution_order = par.base.child_execution_order + 1 := by
  cases ev with
  | llmStart name prompts runId parentRunId now =>
    simp only [Event.parentId] at hpid
    subst hpid
    exact handleLLMStart_child_exec cfg st name prompts runId pid now hok
  | chainStart name inputs runId parentRunId now =>
    simp only [Event.parentId] at hpid
    subst hpid
    exact handleChainStart_child_exec cfg st name inputs runId pid now hok
  | toolStart name input runId parentRunId now =>
    simp only [Event.parentId] at hpid
    subst hpid
    exact handleToolStart_child_exec cfg st name input runId pid now hok
  | llmEnd output runId now => simp [Event.parentId] at hpid
  | llmError message runId now => simp [Event.parentId] at hpid
  | chainEnd outputs runId now => simp [Event.parentId] at hpid
  | chainError message runId now => simp [Event.parentId] at hpid
  | toolEnd output runId now => simp [Event.parentId] at hpid
  | toolError message runId now => simp [Event.parentId] at hpid

/-- C3 (amended): among siblings of any kind, a run that starts after an
earlier-started sibling has CLOSED receives a strictly greater execution
order.  Precisely: starting from a fresh tracer, if the open run under
parent `pid` named by the End/Fail event `evClose` (of any of the three
kinds) is closed successfully, then after any further lifecycle calls
none of which Starts a run with the parent's own id, a successfully
processed Start event of any kind under `pid` registers a run whose
execution order is strictly greater than the closed sibling's.  (Siblings
started while the earlier one is still open can receive equal orders —
see the counterexample.) -/
theorem sibling_order_after_close (cfg : Config) (es0 es1 : List Event)
    (evClose evStart : Event) (pid : String) (a b2 : Run)
    (hclose : evClose.isClose = true)
    (hA : mapGet (stateAfter cfg es0).runMap evClose.runId = some a)
    (hparent : a.base.parent_uuid = some pid)
    (hEndOk : (step cfg (stateAfter cfg es0) evClose).1 = .ok ())
    (hes1 : ∀ e ∈ es1, e.isStart = true → e.runId ≠ pid)
    (hstartpid : evStart.parentId = some pid)
    (hBok : (step cfg
      (runEvents cfg (step cfg (stateAfter cfg es0) evClose).2 es1)
      evStart).1 = .ok ())
    (hB : mapGet (step cfg
      (runEvents cfg (step cfg (stateAfter cfg es0) evClose).2 es1)
      evStart).2.runMap evStart.runId = some b2) :
    a.base.execution_order < b2.base.execution_order := by
  have hinv : a.base.execution_order ≤ a.base.child_execution_order :=
    stateAfter_inv cfg es0 evClose.runId a hA
  have hend := step_close_parent_ceo cfg (stateAfter cfg es0) evClose pid a
    hclose hA hparent hEndOk
  have htr := runEvents_tracked cfg
    (step cfg (stateAfter cfg es0) evClose).2 es1 pid hes1
  obtain ⟨par, hpar2, hexec⟩ := step_start_child_exec cfg
    (runEvents cfg (step cfg (stateAfter cfg es0) evClose).2 es1) evStart pid
    hstartpid hBok
  have hb2exec := hexec b2 hB
  cases hp1 : mapGet
      (step cfg (stateAfter cfg es0) evClose).2.runMap pid with
  | none =>
    rw [htr.1 hp1] at hpar2
    cases hpar2
  | some p1 =>
    have h1 := hend p1 hp1
    have h2 := (htr.2 p1 par hp1 hpar2).2
    rw [hb2exec]
    omega

/-- Witness for C3 (amended), with mixed kinds: the tool child "T"
(order 2) is ended under the chain "R" before the chain child "C" starts
under "R"; "C" receives order 3 > 2. -/
theorem sibling_order_after_close_witness :
    toolT.base.execution_order < chainC3.base.execution_order := by
  exact sibling_order_after_close cfgTriv
    [.chainStart "chain" "" "R" none 0, .toolStart "tool" "in" "T" (some "R") 1]
    [] (.toolEnd "done" "T" 2) (.chainStart "chain" "" "C" (some "R") 5)
    "R" toolT chainC3 rfl (by rfl) rfl (by rfl) (by simp) rfl (by rfl) (by rfl)
